import Mathlib

/-!
# Verification of the openfloor-js protocol library

A shallow embedding of the Open Floor Protocol TypeScript library
(`@openfloor/protocol`): the value-object data model (`dialog-event.ts`,
`envelope.ts`), the duration / URI utilities (`utils.ts`), the structural
schema validator (`validation.ts`), the event classes and factory
(`events.ts`), and the agent state machines (`agents.ts`).

Modelling conventions:
* JavaScript `Date` values are represented by their canonical
  `toISOString()` rendering (a `String`); `new Date(s)` applied to a
  canonical rendering yields the same instant, which we model as the
  identity on the string.
* JavaScript numbers are represented by decimal rationals
  `mant / 10 ^ exp` (`JsNum`); every number the library produces or
  consumes along the modelled code paths is such a decimal.
* Thrown exceptions are modelled with `Except String` / `Option`;
  the error payload is the source's message string.
* `undefined` / absent optional fields are modelled with `Option`;
  JavaScript truthiness is modelled explicitly where the source
  branches on it.
-/

set_option maxHeartbeats 1000000

namespace OFP

/-- A JavaScript/JSON number, as the decimal rational `mant / 10 ^ exp`.
All numbers flowing through the modelled code paths are decimal. -/
structure JsNum where
  mant : Int
  exp : Nat
deriving DecidableEq, Repr

/-- JavaScript `===` on numbers (value equality of the decimals). -/
def jsNumEq (a b : JsNum) : Bool :=
  a.mant * (10 : Int) ^ b.exp == b.mant * (10 : Int) ^ a.exp

/-- JavaScript `<` on numbers. -/
def jsNumLt (a b : JsNum) : Bool :=
  a.mant * (10 : Int) ^ b.exp < b.mant * (10 : Int) ^ a.exp

/-- Decoded JSON values (the validator's `data`, the canonical
projections produced by `toObject`, and the inputs of `fromObject`).
Objects are ordered field lists, mirroring JavaScript insertion order. -/
inductive Json where
  | null
  | bool (b : Bool)
  | num (n : JsNum)
  | str (s : String)
  | arr (elems : List Json)
  | obj (fields : List (String × Json))

/-- Property access `o[k]` on a JSON object (first matching key). -/
def lookupField : List (String × Json) → String → Option Json
  | [], _ => none
  | (k', v) :: rest, k => if k' = k then some v else lookupField rest k

/-- Property access `data.k`: `undefined` (`none`) off objects. -/
def Json.lookup (j : Json) (k : String) : Option Json :=
  match j with
  | .obj fs => lookupField fs k
  | _ => none

/-- JavaScript truthiness of a decoded JSON value
(`null`, `false`, `0`, `""` are falsy; objects and arrays are truthy). -/
def jsTruthy : Json → Bool
  | .null => false
  | .bool b => b
  | .num n => !(n.mant == 0)
  | .str s => !(s == "")
  | .arr _ => true
  | .obj _ => true

/-- JavaScript `typeof` on a decoded JSON value (`typeof null` and
`typeof []` are both `"object"`). -/
def typeofStr : Json → String
  | .null => "object"
  | .bool _ => "boolean"
  | .num _ => "number"
  | .str _ => "string"
  | .arr _ => "object"
  | .obj _ => "object"

/-! ## Decimal digit strings (the model of `${n}` / `parseInt`) -/

def digitChar (d : Nat) : Char := Char.ofNat (48 + d)

def isDigitChar (c : Char) : Bool := 48 ≤ c.toNat && c.toNat ≤ 57

/-- `parseInt(ds, 10)` on a digit string. -/
def digitsToNat (ds : List Char) : Nat :=
  ds.foldl (fun a c => 10 * a + (c.toNat - 48)) 0

/-- Fuelled decimal rendering (fuel `≥ n` suffices). -/
def natToDigitsGo : Nat → Nat → List Char → List Char
  | 0, n, acc => digitChar n :: acc
  | fuel + 1, n, acc =>
      if n < 10 then digitChar n :: acc
      else natToDigitsGo fuel (n / 10) (digitChar (n % 10) :: acc)

/-- The decimal digit string of `n` (the model of number→string). -/
def natToDigits (n : Nat) : List Char := natToDigitsGo n n []

def natToString (n : Nat) : String := ⟨natToDigits n⟩

/-- JavaScript template rendering `${i}` of an integer-valued number. -/
def intToString (i : Int) : String :=
  if i < 0 then "-" ++ natToString i.natAbs else natToString i.natAbs

theorem digitChar_toNat {d : Nat} (h : d < 10) : (digitChar d).toNat = 48 + d := by
  have hv : (48 + d).isValidChar := Or.inl (by omega)
  rw [digitChar, Char.ofNat, dif_pos hv]
  rfl

theorem isDigitChar_digitChar {d : Nat} (h : d < 10) :
    isDigitChar (digitChar d) = true := by
  simp [isDigitChar, digitChar_toNat h]
  omega

theorem natToDigitsGo_append (fuel n : Nat) (acc : List Char) :
    natToDigitsGo fuel n acc = natToDigitsGo fuel n [] ++ acc := by
  induction fuel generalizing n acc with
  | zero => simp [natToDigitsGo]
  | succ fuel ih =>
      by_cases h : n < 10
      · simp [natToDigitsGo, h]
      · rw [natToDigitsGo, if_neg h, natToDigitsGo, if_neg h,
          ih (n / 10) (digitChar (n % 10) :: acc), ih (n / 10) [digitChar (n % 10)]]
        simp

theorem digitsToNat_append_single (ds : List Char) (c : Char) :
    digitsToNat (ds ++ [c]) = 10 * digitsToNat ds + (c.toNat - 48) := by
  simp [digitsToNat, List.foldl_append]

theorem natToDigitsGo_spec (fuel : Nat) : ∀ n, n ≤ fuel →
    digitsToNat (natToDigitsGo fuel n []) = n ∧
    (∀ c ∈ natToDigitsGo fuel n [], isDigitChar c = true) ∧
    natToDigitsGo fuel n [] ≠ [] := by
  induction fuel with
  | zero =>
      intro n hn
      have h0 : n = 0 := Nat.le_zero.mp hn
      subst h0
      refine ⟨by simp [natToDigitsGo, digitsToNat, digitChar_toNat (by omega : (0:Nat) < 10)], ?_, by simp [natToDigitsGo]⟩
      intro c hc
      simp [natToDigitsGo] at hc
      subst hc
      exact isDigitChar_digitChar (by omega)
  | succ fuel ih =>
      intro n hn
      by_cases h : n < 10
      · refine ⟨?_, ?_, by simp [natToDigitsGo, h]⟩
        · simp [natToDigitsGo, h, digitsToNat, digitChar_toNat h]
        · intro c hc
          simp [natToDigitsGo, h] at hc
          subst hc
          exact isDigitChar_digitChar h
      · have hdivle : n / 10 ≤ fuel := by
          have h1 : n / 10 < n := Nat.div_lt_self (by omega) (by omega)
          omega
        obtain ⟨ihv, ihd, _⟩ := ih (n / 10) hdivle
        rw [natToDigitsGo, if_neg h, natToDigitsGo_append]
        refine ⟨?_, ?_, by simp⟩
        · rw [digitsToNat_append_single, ihv, digitChar_toNat (by omega : n % 10 < 10)]
          omega
        · intro c hc
          rcases List.mem_append.mp hc with hc | hc
          · exact ihd c hc
          · simp at hc
            subst hc
            exact isDigitChar_digitChar (by omega : n % 10 < 10)

theorem digitsToNat_natToDigits (n : Nat) : digitsToNat (natToDigits n) = n :=
  (natToDigitsGo_spec n n le_rfl).1

theorem natToDigits_all_digits (n : Nat) :
    ∀ c ∈ natToDigits n, isDigitChar c = true :=
  (natToDigitsGo_spec n n le_rfl).2.1

theorem natToDigits_ne_nil (n : Nat) : natToDigits n ≠ [] :=
  (natToDigitsGo_spec n n le_rfl).2.2

/-! ## ISO 8601 durations (`utils.ts`: `parseIsoDuration`,
`millisecondsToIsoDuration`)

`parseIsoDuration` models the regular-expression match against
`^P(?:(\d+)D)?(?:T(?:(\d+)H)?(?:(\d+)M)?(?:(\d+(?:\.\d+)?)S)?)?$` by a
deterministic scanner: each digit run is maximal and each group is
terminated by a distinct letter, so the scanner accepts exactly the
strings the anchored regex matches, with the same captured groups. -/

/-- Maximal leading digit run of a character list. -/
def takeDigits : List Char → List Char × List Char
  | [] => ([], [])
  | c :: rest =>
      if isDigitChar c then
        let (d, r) := takeDigits rest
        (c :: d, r)
      else ([], c :: rest)

/-- The fractional tail `\.\d+` of the seconds capture, then `S`, then
end of input. `d` is the integer digit run, `p` the scan of what follows
the dot. -/
def parseFracPart (d : List Char) (p : List Char × List Char) : Option JsNum :=
  match p with
  | ([], _) => none
  | (_ :: _, []) => none
  | (f :: fs, c :: r3) =>
      if c = 'S' ∧ r3 = [] then
        some ⟨digitsToNat (d ++ f :: fs), (f :: fs).length⟩
      else none

/-- The optional seconds group `(\d+(?:\.\d+)?)S`, then end of input.
`d` is the digit run already scanned; result is the seconds as a number
(`parseFloat` of the capture). -/
def parseSecondsPart (d : List Char) (cs : List Char) : Option JsNum :=
  match d, cs with
  | [], [] => some ⟨0, 0⟩
  | [], _ :: _ => none
  | _ :: _, [] => none
  | a :: d', c :: rest =>
      if c = 'S' then (if rest = [] then some ⟨digitsToNat (a :: d'), 0⟩ else none)
      else if c = '.' then parseFracPart (a :: d') (takeDigits rest)
      else none

/-- Minutes/seconds scan after a captured hours group `hd`. -/
def parseTimeH (hd : List Char) (p : List Char × List Char) : Option (Nat × Nat × JsNum) :=
  match p with
  | ([], r3) => (parseSecondsPart [] r3).map (fun s => (digitsToNat hd, 0, s))
  | (c2 :: d2, []) => (parseSecondsPart (c2 :: d2) []).map (fun s => (digitsToNat hd, 0, s))
  | (c2 :: d2, c :: r4) =>
      if c = 'M' then
        (parseSecondsPart (takeDigits r4).1 (takeDigits r4).2).map
          (fun s => (digitsToNat hd, digitsToNat (c2 :: d2), s))
      else (parseSecondsPart (c2 :: d2) (c :: r4)).map (fun s => (digitsToNat hd, 0, s))

/-- The `(?:(\d+)H)?(?:(\d+)M)?(?:(\d+(?:\.\d+)?)S)?` part after `T`,
given the first digit scan: returns (hours, minutes, seconds). -/
def parseTimeGo (p : List Char × List Char) : Option (Nat × Nat × JsNum) :=
  match p with
  | ([], r1) => (parseSecondsPart [] r1).map (fun s => (0, 0, s))
  | (c1 :: d1, []) => (parseSecondsPart (c1 :: d1) []).map (fun s => (0, 0, s))
  | (c1 :: d1, c :: r2) =>
      if c = 'H' then parseTimeH (c1 :: d1) (takeDigits r2)
      else if c = 'M' then
        (parseSecondsPart (takeDigits r2).1 (takeDigits r2).2).map
          (fun s => (0, digitsToNat (c1 :: d1), s))
      else (parseSecondsPart (c1 :: d1) (c :: r2)).map (fun s => (0, 0, s))

def parseTimeSection (cs : List Char) : Option (Nat × Nat × JsNum) :=
  parseTimeGo (takeDigits cs)

/-- The optional `T…` section (or end of input) after the days group. -/
def parseAfterDays (cs : List Char) : Option (Nat × Nat × JsNum) :=
  match cs with
  | [] => some (0, 0, ⟨0, 0⟩)
  | c :: r => if c = 'T' then parseTimeSection r else none

/-- The optional `(\d+)D` group after `P`. -/
def parseDaysGo (p : List Char × List Char) (cs : List Char) :
    Option (Nat × Nat × Nat × JsNum) :=
  match p with
  | ([], _) => (parseAfterDays cs).map (fun hms => (0, hms))
  | (_ :: _, []) => none
  | (c0 :: d0, c :: r1) =>
      if c = 'D' then (parseAfterDays r1).map (fun hms => (digitsToNat (c0 :: d0), hms))
      else none

def parseDaysSection (cs : List Char) : Option (Nat × Nat × Nat × JsNum) :=
  parseDaysGo (takeDigits cs) cs

/-- `((days * 24 + hours) * 60 + minutes) * 60000 + seconds * 1000`. -/
def durationMs (dhms : Nat × Nat × Nat × JsNum) : JsNum :=
  match dhms with
  | (d, h, m, sec) =>
      ⟨(((d * 24 + h) * 60 + m) * 60000 : Int) * (10 : Int) ^ sec.exp +
        sec.mant * 1000, sec.exp⟩

def parseIsoChars (cs : List Char) : Option JsNum :=
  match cs with
  | [] => none
  | c :: rest =>
      if c = 'P' then (parseDaysSection rest).map durationMs
      else none

/-- `utils.ts` `parseIsoDuration`: milliseconds of an ISO 8601 duration
string, `none` for the thrown `Invalid ISO 8601 duration` error.
The result is `((days*24+hours)*60+minutes)*60000 + seconds*1000`. -/
def parseIsoDuration (s : String) : Option JsNum :=
  parseIsoChars s.data

/-- `Math.floor(q / k)` for a decimal number `q` and positive integer `k`. -/
def jsFloorDiv (q : JsNum) (k : Int) : Int :=
  q.mant.fdiv (k * (10 : Int) ^ q.exp)

/-- `utils.ts` `millisecondsToIsoDuration`. -/
def millisecondsToIsoDuration (ms : JsNum) : String :=
  let totalSeconds : Int := jsFloorDiv ms 1000
  let hours : Int := totalSeconds.fdiv 3600
  let minutes : Int := (Int.tmod totalSeconds 3600).fdiv 60
  let seconds : Int := Int.tmod totalSeconds 60
  let hasH : Bool := decide (0 < hours)
  let hasM : Bool := decide (0 < minutes)
  let hasS : Bool := decide (0 < seconds) || (!hasH && !hasM)
  "PT" ++ (if hasH then intToString hours ++ "H" else "") ++
    (if hasM then intToString minutes ++ "M" else "") ++
    (if hasS then intToString seconds ++ "S" else "")

theorem str_data_append (a b : String) : (a ++ b).data = a.data ++ b.data := by
  cases a; cases b; rfl

theorem natToString_data (n : Nat) : (natToString n).data = natToDigits n := rfl

theorem intToString_coe_nat (n : Nat) : intToString (n : Int) = natToString n := by
  rw [intToString, if_neg (by omega)]
  simp

theorem takeDigits_append_of_digits (ds rest : List Char)
    (hds : ∀ c ∈ ds, isDigitChar c = true)
    (hrest : ∀ c r, rest = c :: r → isDigitChar c = false) :
    takeDigits (ds ++ rest) = (ds, rest) := by
  induction ds with
  | nil =>
      cases rest with
      | nil => rfl
      | cons c r => simp [takeDigits, hrest c r rfl]
  | cons d ds ih =>
      have hd : isDigitChar d = true := hds d (by simp)
      have ih' := ih (fun c hc => hds c (by simp [hc]))
      simp [takeDigits, hd, ih']

/-- For a number whose floored second count is the natural `ts`,
`millisecondsToIsoDuration` renders `PT⟨h⟩H⟨m⟩M⟨s⟩S` with the parts of `ts`. -/
theorem millisecondsToIsoDuration_of_nat (q : JsNum) (ts : Nat)
    (h : jsFloorDiv q 1000 = (ts : Int)) :
    millisecondsToIsoDuration q =
      "PT" ++ (if 0 < ts / 3600 then natToString (ts / 3600) ++ "H" else "") ++
        (if 0 < ts % 3600 / 60 then natToString (ts % 3600 / 60) ++ "M" else "") ++
        (if (0 < ts % 60 ∨ (¬ 0 < ts / 3600 ∧ ¬ 0 < ts % 3600 / 60)) then
          natToString (ts % 60) ++ "S" else "") := by
  rw [millisecondsToIsoDuration, h]
  rw [show (3600 : Int) = ((3600 : Nat) : Int) from rfl,
    show (60 : Int) = ((60 : Nat) : Int) from rfl]
  rw [← Int.ofNat_fdiv, ← Int.ofNat_tmod, ← Int.ofNat_fdiv, ← Int.ofNat_tmod]
  simp only [Nat.cast_pos, intToString_coe_nat, Bool.or_eq_true, Bool.and_eq_true,
    Bool.not_eq_true', decide_eq_true_eq, decide_eq_false_iff_not]

theorem isDigitChar_H : isDigitChar 'H' = false := by decide

theorem isDigitChar_M : isDigitChar 'M' = false := by decide

theorem isDigitChar_S : isDigitChar 'S' = false := by decide

theorem isDigitChar_T : isDigitChar 'T' = false := by decide

theorem dataPT : ("PT" : String).data = ['P', 'T'] := rfl

theorem dataH : ("H" : String).data = ['H'] := rfl

theorem dataM : ("M" : String).data = ['M'] := rfl

theorem dataS : ("S" : String).data = ['S'] := rfl

theorem dataEmpty : ("" : String).data = [] := rfl

theorem parseIsoChars_P (rest : List Char) :
    parseIsoChars ('P' :: rest) = (parseDaysSection rest).map durationMs := by
  simp [parseIsoChars]

theorem parseDaysGo_nil (r cs : List Char) :
    parseDaysGo ([], r) cs = (parseAfterDays cs).map (fun hms => (0, hms)) := by
  simp [parseDaysGo]

theorem parseAfterDays_T (r : List Char) :
    parseAfterDays ('T' :: r) = parseTimeSection r := by
  simp [parseAfterDays]

theorem parseTimeGo_cons_H (d1 : List Char) (hne : d1 ≠ []) (r2 : List Char) :
    parseTimeGo (d1, 'H' :: r2) = parseTimeH d1 (takeDigits r2) := by
  obtain ⟨c, l, rfl⟩ := List.exists_cons_of_ne_nil hne
  simp [parseTimeGo]

theorem parseTimeGo_cons_M (d1 : List Char) (hne : d1 ≠ []) (r2 : List Char) :
    parseTimeGo (d1, 'M' :: r2) =
      (parseSecondsPart (takeDigits r2).1 (takeDigits r2).2).map
        (fun s => (0, digitsToNat d1, s)) := by
  obtain ⟨c, l, rfl⟩ := List.exists_cons_of_ne_nil hne
  simp [parseTimeGo]

theorem parseTimeGo_cons_other (d1 : List Char) (hne : d1 ≠ []) (c : Char)
    (hH : c ≠ 'H') (hM : c ≠ 'M') (r : List Char) :
    parseTimeGo (d1, c :: r) =
      (parseSecondsPart d1 (c :: r)).map (fun s => (0, 0, s)) := by
  obtain ⟨a, l, rfl⟩ := List.exists_cons_of_ne_nil hne
  simp [parseTimeGo, hH, hM]

theorem parseTimeH_nil (hd : List Char) (r3 : List Char) :
    parseTimeH hd ([], r3) = (parseSecondsPart [] r3).map (fun s => (digitsToNat hd, 0, s)) := by
  simp [parseTimeH]

theorem parseTimeH_cons_M (hd d2 : List Char) (hne : d2 ≠ []) (r4 : List Char) :
    parseTimeH hd (d2, 'M' :: r4) =
      (parseSecondsPart (takeDigits r4).1 (takeDigits r4).2).map
        (fun s => (digitsToNat hd, digitsToNat d2, s)) := by
  obtain ⟨c, l, rfl⟩ := List.exists_cons_of_ne_nil hne
  simp [parseTimeH]

theorem parseTimeH_cons_other (hd d2 : List Char) (hne : d2 ≠ []) (c : Char)
    (hM : c ≠ 'M') (r : List Char) :
    parseTimeH hd (d2, c :: r) =
      (parseSecondsPart d2 (c :: r)).map (fun s => (digitsToNat hd, 0, s)) := by
  obtain ⟨a, l, rfl⟩ := List.exists_cons_of_ne_nil hne
  simp [parseTimeH, hM]

theorem parseSecondsPart_nil_nil : parseSecondsPart [] [] = some ⟨0, 0⟩ := rfl

theorem parseSecondsPart_S (d : List Char) (hne : d ≠ []) :
    parseSecondsPart d ['S'] = some ⟨(digitsToNat d : Int), 0⟩ := by
  obtain ⟨a, t, rfl⟩ := List.exists_cons_of_ne_nil hne
  simp [parseSecondsPart]

theorem takeDigits_nil : takeDigits [] = ([], []) := rfl

/-- The scanner recovers the three components from a rendered
`PT⟨h⟩H⟨m⟩M⟨s⟩S` string (each part present as rendered by
`millisecondsToIsoDuration`). -/
theorem parseIsoDuration_render (h m s : Nat) :
    parseIsoDuration
      ("PT" ++ (if 0 < h then natToString h ++ "H" else "") ++
        (if 0 < m then natToString m ++ "M" else "") ++
        (if (0 < s ∨ (¬ 0 < h ∧ ¬ 0 < m)) then natToString s ++ "S" else "")) =
      some ⟨((h * 3600 + m * 60 + s) * 1000 : Int), 0⟩ := by
  have ht3 : takeDigits (natToDigits s ++ ['S']) = (natToDigits s, ['S']) := by
    rw [show (natToDigits s ++ ['S'] : List Char) = natToDigits s ++ 'S' :: [] by simp]
    exact takeDigits_append_of_digits _ _ (natToDigits_all_digits s)
      (fun c r hcr => by cases hcr; exact isDigitChar_S)
  by_cases h1 : 0 < h <;> by_cases h2 : 0 < m
  · -- hours and minutes parts present
    by_cases h3 : (0 < s ∨ (¬ 0 < h ∧ ¬ 0 < m))
    · rw [if_pos h1, if_pos h2, if_pos h3, parseIsoDuration]
      have hdata : ("PT" ++ (natToString h ++ "H") ++ (natToString m ++ "M") ++
          (natToString s ++ "S")).data =
          'P' :: 'T' :: (natToDigits h ++ 'H' :: (natToDigits m ++ 'M' ::
            (natToDigits s ++ ['S']))) := by
        simp [str_data_append, natToString_data, dataPT, dataH, dataM, dataS]
      rw [hdata, parseIsoChars_P, parseDaysSection]
      rw [show takeDigits ('T' :: (natToDigits h ++ 'H' :: (natToDigits m ++ 'M' ::
        (natToDigits s ++ ['S'])))) = ([], 'T' :: (natToDigits h ++ 'H' ::
        (natToDigits m ++ 'M' :: (natToDigits s ++ ['S'])))) by
          simp [takeDigits, isDigitChar_T]]
      rw [parseDaysGo_nil, parseAfterDays_T, parseTimeSection]
      rw [takeDigits_append_of_digits _ _ (natToDigits_all_digits h)
        (fun c r hcr => by cases hcr; exact isDigitChar_H)]
      rw [parseTimeGo_cons_H _ (natToDigits_ne_nil h)]
      rw [takeDigits_append_of_digits _ _ (natToDigits_all_digits m)
        (fun c r hcr => by cases hcr; exact isDigitChar_M)]
      rw [parseTimeH_cons_M _ _ (natToDigits_ne_nil m)]
      rw [ht3]
      simp only [parseSecondsPart_S _ (natToDigits_ne_nil s), digitsToNat_natToDigits,
        Option.map_some', durationMs, pow_zero, mul_one, Option.some.injEq, JsNum.mk.injEq,
        and_true]
      push_cast
      ring
    · -- seconds part absent
      rw [if_pos h1, if_pos h2, if_neg h3, parseIsoDuration]
      have hs0 : s = 0 := by
        by_contra hne
        exact h3 (Or.inl (by omega))
      have hdata : ("PT" ++ (natToString h ++ "H") ++ (natToString m ++ "M") ++ "").data =
          'P' :: 'T' :: (natToDigits h ++ 'H' :: (natToDigits m ++ ['M'])) := by
        simp [str_data_append, natToString_data, dataPT, dataH, dataM, dataEmpty]
      rw [hdata, parseIsoChars_P, parseDaysSection]
      rw [show takeDigits ('T' :: (natToDigits h ++ 'H' :: (natToDigits m ++ ['M']))) =
        ([], 'T' :: (natToDigits h ++ 'H' :: (natToDigits m ++ ['M']))) by
          simp [takeDigits, isDigitChar_T]]
      rw [parseDaysGo_nil, parseAfterDays_T, parseTimeSection]
      rw [takeDigits_append_of_digits _ _ (natToDigits_all_digits h)
        (fun c r hcr => by cases hcr; exact isDigitChar_H)]
      rw [parseTimeGo_cons_H _ (natToDigits_ne_nil h)]
      rw [show (natToDigits m ++ ['M'] : List Char) = natToDigits m ++ 'M' :: [] by simp]
      rw [takeDigits_append_of_digits _ _ (natToDigits_all_digits m)
        (fun c r hcr => by cases hcr; exact isDigitChar_M)]
      rw [parseTimeH_cons_M _ _ (natToDigits_ne_nil m), takeDigits_nil]
      simp only [parseSecondsPart_nil_nil, digitsToNat_natToDigits, Option.map_some',
        durationMs, pow_zero, mul_one, Option.some.injEq, JsNum.mk.injEq, and_true, hs0]
      push_cast
      ring
  · -- hours present, minutes absent
    by_cases h3 : (0 < s ∨ (¬ 0 < h ∧ ¬ 0 < m))
    · rw [if_pos h1, if_neg h2, if_pos h3, parseIsoDuration]
      have hdata : ("PT" ++ (natToString h ++ "H") ++ "" ++ (natToString s ++ "S")).data =
          'P' :: 'T' :: (natToDigits h ++ 'H' :: (natToDigits s ++ ['S'])) := by
        simp [str_data_append, natToString_data, dataPT, dataH, dataS, dataEmpty]
      rw [hdata, parseIsoChars_P, parseDaysSection]
      rw [show takeDigits ('T' :: (natToDigits h ++ 'H' :: (natToDigits s ++ ['S']))) =
        ([], 'T' :: (natToDigits h ++ 'H' :: (natToDigits s ++ ['S']))) by
          simp [takeDigits, isDigitChar_T]]
      rw [parseDaysGo_nil, parseAfterDays_T, parseTimeSection]
      rw [takeDigits_append_of_digits _ _ (natToDigits_all_digits h)
        (fun c r hcr => by cases hcr; exact isDigitChar_H)]
      rw [parseTimeGo_cons_H _ (natToDigits_ne_nil h)]
      rw [show (natToDigits s ++ ['S'] : List Char) = natToDigits s ++ 'S' :: [] by simp]
      rw [takeDigits_append_of_digits _ _ (natToDigits_all_digits s)
        (fun c r hcr => by cases hcr; exact isDigitChar_S)]
      rw [parseTimeH_cons_other _ _ (natToDigits_ne_nil s) 'S' (by decide)]
      rw [parseSecondsPart_S _ (natToDigits_ne_nil s)]
      have hm0 : m = 0 := by omega
      simp only [digitsToNat_natToDigits, Option.map_some', durationMs, pow_zero, mul_one,
        Option.some.injEq, JsNum.mk.injEq, and_true, hm0]
      push_cast
      ring
    · rw [if_pos h1, if_neg h2, if_neg h3, parseIsoDuration]
      have hs0 : s = 0 := by
        by_contra hne
        exact h3 (Or.inl (by omega))
      have hm0 : m = 0 := by omega
      have hdata : ("PT" ++ (natToString h ++ "H") ++ "" ++ "").data =
          'P' :: 'T' :: (natToDigits h ++ ['H']) := by
        simp [str_data_append, natToString_data, dataPT, dataH, dataEmpty]
      rw [hdata, parseIsoChars_P, parseDaysSection]
      rw [show takeDigits ('T' :: (natToDigits h ++ ['H'])) =
        ([], 'T' :: (natToDigits h ++ ['H'])) by simp [takeDigits, isDigitChar_T]]
      rw [parseDaysGo_nil, parseAfterDays_T, parseTimeSection]
      rw [show (natToDigits h ++ ['H'] : List Char) = natToDigits h ++ 'H' :: [] by simp]
      rw [takeDigits_append_of_digits _ _ (natToDigits_all_digits h)
        (fun c r hcr => by cases hcr; exact isDigitChar_H)]
      rw [parseTimeGo_cons_H _ (natToDigits_ne_nil h), takeDigits_nil, parseTimeH_nil]
      simp only [parseSecondsPart_nil_nil, digitsToNat_natToDigits, Option.map_some',
        durationMs, pow_zero, mul_one, Option.some.injEq, JsNum.mk.injEq, and_true, hs0, hm0]
      push_cast
      ring
  · -- hours absent, minutes present
    by_cases h3 : (0 < s ∨ (¬ 0 < h ∧ ¬ 0 < m))
    · rw [if_neg h1, if_pos h2, if_pos h3, parseIsoDuration]
      have hdata : ("PT" ++ "" ++ (natToString m ++ "M") ++ (natToString s ++ "S")).data =
          'P' :: 'T' :: (natToDigits m ++ 'M' :: (natToDigits s ++ ['S'])) := by
        simp [str_data_append, natToString_data, dataPT, dataM, dataS, dataEmpty]
      rw [hdata, parseIsoChars_P, parseDaysSection]
      rw [show takeDigits ('T' :: (natToDigits m ++ 'M' :: (natToDigits s ++ ['S']))) =
        ([], 'T' :: (natToDigits m ++ 'M' :: (natToDigits s ++ ['S']))) by
          simp [takeDigits, isDigitChar_T]]
      rw [parseDaysGo_nil, parseAfterDays_T, parseTimeSection]
      rw [takeDigits_append_of_digits _ _ (natToDigits_all_digits m)
        (fun c r hcr => by cases hcr; exact isDigitChar_M)]
      rw [parseTimeGo_cons_M _ (natToDigits_ne_nil m), ht3]
      rw [show ((natToDigits s, ['S']).1 : List Char) = natToDigits s from rfl,
        show ((natToDigits s, ['S']).2 : List Char) = ['S'] from rfl]
      rw [parseSecondsPart_S _ (natToDigits_ne_nil s)]
      have hh0 : h = 0 := by omega
      simp only [digitsToNat_natToDigits, Option.map_some', durationMs, pow_zero, mul_one,
        Option.some.injEq, JsNum.mk.injEq, and_true, hh0]
      push_cast
      ring
    · rw [if_neg h1, if_pos h2, if_neg h3, parseIsoDuration]
      have hs0 : s = 0 := by
        by_contra hne
        exact h3 (Or.inl (by omega))
      have hh0 : h = 0 := by omega
      have hdata : ("PT" ++ "" ++ (natToString m ++ "M") ++ "").data =
          'P' :: 'T' :: (natToDigits m ++ ['M']) := by
        simp [str_data_append, natToString_data, dataPT, dataM, dataEmpty]
      rw [hdata, parseIsoChars_P, parseDaysSection]
      rw [show takeDigits ('T' :: (natToDigits m ++ ['M'])) =
        ([], 'T' :: (natToDigits m ++ ['M'])) by simp [takeDigits, isDigitChar_T]]
      rw [parseDaysGo_nil, parseAfterDays_T, parseTimeSection]
      rw [show (natToDigits m ++ ['M'] : List Char) = natToDigits m ++ 'M' :: [] by simp]
      rw [takeDigits_append_of_digits _ _ (natToDigits_all_digits m)
        (fun c r hcr => by cases hcr; exact isDigitChar_M)]
      rw [parseTimeGo_cons_M _ (natToDigits_ne_nil m), takeDigits_nil]
      simp only [parseSecondsPart_nil_nil, digitsToNat_natToDigits, Option.map_some',
        durationMs, pow_zero, mul_one, Option.some.injEq, JsNum.mk.injEq, and_true, hs0, hh0]
      push_cast
      ring
  · -- hours and minutes both absent: seconds part always present
    have h3 : (0 < s ∨ (¬ 0 < h ∧ ¬ 0 < m)) := Or.inr ⟨h1, h2⟩
    rw [if_neg h1, if_neg h2, if_pos h3, parseIsoDuration]
    have hh0 : h = 0 := by omega
    have hm0 : m = 0 := by omega
    have hdata : ("PT" ++ "" ++ "" ++ (natToString s ++ "S")).data =
        'P' :: 'T' :: (natToDigits s ++ ['S']) := by
      simp [str_data_append, natToString_data, dataPT, dataS, dataEmpty]
    rw [hdata, parseIsoChars_P, parseDaysSection]
    rw [show takeDigits ('T' :: (natToDigits s ++ ['S'])) =
      ([], 'T' :: (natToDigits s ++ ['S'])) by simp [takeDigits, isDigitChar_T]]
    rw [parseDaysGo_nil, parseAfterDays_T, parseTimeSection]
    rw [show (natToDigits s ++ ['S'] : List Char) = natToDigits s ++ 'S' :: [] by simp]
    rw [takeDigits_append_of_digits _ _ (natToDigits_all_digits s)
      (fun c r hcr => by cases hcr; exact isDigitChar_S)]
    rw [parseTimeGo_cons_other _ (natToDigits_ne_nil s) 'S' (by decide) (by decide)]
    rw [parseSecondsPart_S _ (natToDigits_ne_nil s)]
    simp only [digitsToNat_natToDigits, Option.map_some', durationMs, pow_zero, mul_one,
      Option.some.injEq, JsNum.mk.injEq, and_true, hh0, hm0]
    push_cast
    ring

/-- Printing then parsing a non-negatively-floored number of milliseconds
yields the millisecond count floored to whole seconds. -/
theorem parse_millisecondsToIsoDuration (q : JsNum) (ts : Nat)
    (h : jsFloorDiv q 1000 = (ts : Int)) :
    parseIsoDuration (millisecondsToIsoDuration q) = some ⟨(1000 * ts : Int), 0⟩ := by
  rw [millisecondsToIsoDuration_of_nat q ts h]
  have key := parseIsoDuration_render (ts / 3600) (ts % 3600 / 60) (ts % 60)
  rw [key]
  have harith : (ts / 3600 * 3600 + ts % 3600 / 60 * 60 + ts % 60) * 1000 = 1000 * ts := by
    omega
  simp only [Option.some.injEq, JsNum.mk.injEq, and_true]
  rw [show ((↑(ts / 3600) * 3600 + ↑(ts % 3600 / 60) * 60 + ↑(ts % 60)) * 1000 : Int) =
    (((ts / 3600 * 3600 + ts % 3600 / 60 * 60 + ts % 60) * 1000 : Nat) : Int) by
      push_cast; ring]
  rw [harith]
  push_cast
  ring
/-- C8 counterexample: `millisecondsToIsoDuration 1500 = "PT1S"` and
`parseIsoDuration "PT1S" = 1000 ≠ 1500`, so the claimed round trip
`parseIsoDuration (millisecondsToIsoDuration n) = n` fails at `n = 1500`. -/
theorem claim_C8_counterexample :
    millisecondsToIsoDuration ⟨(1500 : Int), 0⟩ = "PT1S" ∧
    parseIsoDuration "PT1S" = some ⟨(1000 : Int), 0⟩ ∧
    JsNum.mk (1000 : Int) 0 ≠ JsNum.mk (1500 : Int) 0 :=
  ⟨rfl, rfl, by decide⟩

/-- C8 (amended): for every non-negative integer number of milliseconds
`n`, `parseIsoDuration (millisecondsToIsoDuration n)` equals `n` floored
to whole seconds, `1000 * (n / 1000)`; in particular it equals `n`
exactly when `n` is a whole number of seconds (`n % 1000 = 0`). -/
theorem claim_C8_amended (n : Nat) :
    parseIsoDuration (millisecondsToIsoDuration ⟨(n : Int), 0⟩) =
      some ⟨((1000 * (n / 1000) : Nat) : Int), 0⟩ ∧
    (n % 1000 = 0 →
      parseIsoDuration (millisecondsToIsoDuration ⟨(n : Int), 0⟩) =
        some ⟨((n : Nat) : Int), 0⟩) := by
  have hq : jsFloorDiv ⟨(n : Int), 0⟩ 1000 = ((n / 1000 : Nat) : Int) := by
    rw [jsFloorDiv]
    norm_num
    exact Int.fdiv_eq_ediv _ (by omega)
  constructor
  · rw [parse_millisecondsToIsoDuration ⟨(n : Int), 0⟩ (n / 1000) hq]
    simp only [Option.some.injEq, JsNum.mk.injEq, and_true]
    push_cast
    ring
  · intro hmod
    rw [parse_millisecondsToIsoDuration ⟨(n : Int), 0⟩ (n / 1000) hq]
    simp only [Option.some.injEq, JsNum.mk.injEq, and_true]
    omega

/-- C8 witness: at `n = 3000` the round trip is exact. -/
theorem claim_C8_amended_witness :
    parseIsoDuration (millisecondsToIsoDuration ⟨((3000 : Nat) : Int), 0⟩) =
      some ⟨((3000 : Nat) : Int), 0⟩ :=
  (claim_C8_amended 3000).2 (by decide)

/-! ## Shared utilities (`utils.ts`) -/

/-- Except-valued map over a list (sequential, first error wins), the model
of `array.map(f)` where `f` may throw. -/
def mapE (f : α → Except String β) : List α → Except String (List β)
  | [] => .ok []
  | x :: xs => do
      let y ← f x
      let ys ← mapE f xs
      pure (y :: ys)

/-- Truthiness of an optional string (`undefined` and `""` are falsy). -/
def strTruthy : Option String → Bool
  | none => false
  | some s => !(s == "")

def jsTruthyOpt : Option Json → Bool
  | none => false
  | some v => jsTruthy v

/-- `utils.ts` `createValidationError`; `none` models an `undefined` value. -/
def createValidationError (fieldName : String) (value : Option Json)
    (requirement : String) : String :=
  fieldName ++ ": expected " ++ requirement ++ ", got " ++
    (match value with
     | some (.str s) => "\"" ++ s ++ "\""
     | some v => typeofStr v
     | none => "undefined")

/-- `utils.ts` `hasRequiredProperties`. -/
def hasRequiredProperties (j : Json) (props : List String) : Bool :=
  jsTruthy j && (typeofStr j == "object") && props.all (fun p => (j.lookup p).isSome)

/-- A character of the URI-scheme body `[a-zA-Z0-9+.-]`. -/
def isSchemeChar (c : Char) : Bool :=
  c.isAlpha || c.isDigit || c == '+' || c == '.' || c == '-'

/-- `utils.ts` `isValidUri`: `scheme:path` with `^[a-zA-Z][a-zA-Z0-9+.-]*$`
scheme (the first colon splits) and a non-empty path. -/
def isValidUri (uri : String) : Bool :=
  let cs := uri.data
  let scheme := cs.takeWhile (fun c => !(c == ':'))
  match cs.dropWhile (fun c => !(c == ':')) with
  | [] => false
  | _ :: path =>
      (match scheme with
       | [] => false
       | c :: rest => c.isAlpha && rest.all isSchemeChar) && !path.isEmpty

/-- `utils.ts` `isValidConfidence`: `0 ≤ c ≤ 1` (decimals are never `NaN`). -/
def isValidConfidence (c : JsNum) : Bool :=
  !(jsNumLt c ⟨0, 0⟩) && !(jsNumLt ⟨1, 0⟩ c)

/-- `utils.ts` `isValidEncoding`. -/
def isValidEncoding (e : String) : Bool :=
  e == "ISO-8859-1" || e == "iso-8859-1" || e == "UTF-8" || e == "utf-8"

/-- Reading a string-typed field out of decoded JSON. Values of other
runtime types in these positions never arise from canonical projections
(`toObject` emits strings there); we model them as absent. -/
def strField (j : Json) (k : String) : Option String :=
  match j.lookup k with
  | some (.str s) => some s
  | _ => none

def boolField (j : Json) (k : String) : Option Bool :=
  match j.lookup k with
  | some (.bool b) => some b
  | _ => none

def numField (j : Json) (k : String) : Option JsNum :=
  match j.lookup k with
  | some (.num q) => some q
  | _ => none

def arrField (j : Json) (k : String) : Option (List Json) :=
  match j.lookup k with
  | some (.arr xs) => some xs
  | _ => none

def objField (j : Json) (k : String) : Option (List (String × Json)) :=
  match j.lookup k with
  | some (.obj fs) => some fs
  | _ => none

def Json.isObj : Json → Bool
  | .obj _ => true
  | _ => false

/-! ## `dialog-event.ts`: Span, Token, Feature, DialogEvent

A `Span` field holds whatever runtime value was assigned to it. Along
the typed construction path these are `Date`s (`TimeVal.date`, carried
as the canonical ISO rendering) and numbers (`OffVal.num`); along
`Token.fromObject`'s untyped cast (`Span.fromObject(data).toObject() as
SpanOptions`) they are the *rendered strings* of `Span.toObject`
(`TimeVal.str` / `OffVal.str`), which is the source's bug this model
must preserve. -/

inductive TimeVal where
  | date (iso : String)
  | str (s : String)
deriving DecidableEq, Repr

inductive OffVal where
  | num (q : JsNum)
  | str (s : String)
deriving DecidableEq, Repr

structure SpanOptions where
  startTime : Option TimeVal := none
  startOffset : Option OffVal := none
  endTime : Option TimeVal := none
  endOffset : Option OffVal := none
deriving DecidableEq, Repr

structure Span where
  startTime : Option TimeVal
  startOffset : Option OffVal
  endTime : Option TimeVal
  endOffset : Option OffVal
deriving DecidableEq, Repr

/-- Truthiness of a span time field (a `Date` is truthy, a string is
truthy when non-empty). -/
def timeTruthy : Option TimeVal → Bool
  | none => false
  | some (.date _) => true
  | some (.str s) => !(s == "")

/-- The `Span` constructor. `now` is the `new Date()` taken when neither
start field is given. -/
def mkSpan (now : String) (o : SpanOptions) : Except String Span :=
  let defaulted := !(timeTruthy o.startTime) && o.startOffset.isNone
  let st : Option TimeVal := if defaulted then some (.date now) else o.startTime
  let so : Option OffVal := if defaulted then none else o.startOffset
  if timeTruthy st && so.isSome then
    .error (createValidationError "Span" (some (.str "both startTime and startOffset"))
      "either startTime or startOffset, not both")
  else if timeTruthy o.endTime && o.endOffset.isSome then
    .error (createValidationError "Span" (some (.str "both endTime and endOffset"))
      "either endTime or endOffset, not both")
  else if !(timeTruthy st) && so.isNone then
    .error (createValidationError "Span" (some (.str "neither startTime nor startOffset"))
      "either startTime or startOffset")
  else
    .ok ⟨st, so, o.endTime, o.endOffset⟩

/-- `time.to_ISOString()`: on a `Date` the canonical rendering; on a raw
string a thrown `TypeError` (strings have no `toISOString`). -/
def timeToIso : TimeVal → Except String String
  | .date iso => .ok iso
  | .str _ => .error "TypeError: toISOString is not a function"

/-- `millisecondsToIsoDuration(off)`: on a number the rendering; a raw
string (always a previously rendered `PT…` duration here, never numeric)
coerces to `NaN`, and every part of the `NaN` rendering collapses to the
single `NaNS` part. -/
def offToIso : OffVal → String
  | .num q => millisecondsToIsoDuration q
  | .str _ => "PTNaNS"

def Span.toObject (sp : Span) : Except String Json := do
  let f1 ← match sp.startTime with
    | some t => do
        let s ← timeToIso t
        pure [("startTime", Json.str s)]
    | none => pure ([] : List (String × Json))
  let f2 : List (String × Json) := match sp.startOffset with
    | some o => [("startOffset", Json.str (offToIso o))]
    | none => []
  let f3 ← match sp.endTime with
    | some t => do
        let s ← timeToIso t
        pure [("endTime", Json.str s)]
    | none => pure ([] : List (String × Json))
  let f4 : List (String × Json) := match sp.endOffset with
    | some o => [("endOffset", Json.str (offToIso o))]
    | none => []
  pure (Json.obj (f1 ++ f2 ++ f3 ++ f4))

/-- `Span.fromObject`: string times become `new Date(s)` (identity on
canonical renderings), string offsets are parsed (throwing on invalid
durations), numeric offsets pass through; then the constructor runs. -/
def Span.fromObject (now : String) (data : Json) : Except String Span := do
  let st : Option TimeVal := match data.lookup "startTime" with
    | some (.str s) => some (.date s)
    | _ => none
  let et : Option TimeVal := match data.lookup "endTime" with
    | some (.str s) => some (.date s)
    | _ => none
  let so : Option OffVal ← match data.lookup "startOffset" with
    | some (.str s) =>
        (match parseIsoDuration s with
         | some q => pure (some (OffVal.num q))
         | none => Except.error ("Invalid ISO 8601 duration: " ++ s))
    | some (.num q) => pure (some (OffVal.num q))
    | _ => pure none
  let eo : Option OffVal ← match data.lookup "endOffset" with
    | some (.str s) =>
        (match parseIsoDuration s with
         | some q => pure (some (OffVal.num q))
         | none => Except.error ("Invalid ISO 8601 duration: " ++ s))
    | some (.num q) => pure (some (OffVal.num q))
    | _ => pure none
  mkSpan now ⟨st, so, et, eo⟩

/-- The untyped `as SpanOptions` cast of a JSON object (the fields keep
their runtime values: rendered time strings stay strings). -/
def spanOptionsOfJson (j : Json) : SpanOptions :=
  { startTime := match j.lookup "startTime" with
      | some (.str s) => some (.str s)
      | _ => none,
    startOffset := match j.lookup "startOffset" with
      | some (.str s) => some (.str s)
      | some (.num q) => some (.num q)
      | _ => none,
    endTime := match j.lookup "endTime" with
      | some (.str s) => some (.str s)
      | _ => none,
    endOffset := match j.lookup "endOffset" with
      | some (.str s) => some (.str s)
      | some (.num q) => some (.num q)
      | _ => none }

def Span.toOptions (sp : Span) : SpanOptions :=
  ⟨sp.startTime, sp.startOffset, sp.endTime, sp.endOffset⟩

structure TokenOptions where
  value : Option Json := none
  valueUrl : Option String := none
  span : Option SpanOptions := none
  confidence : Option JsNum := none
  links : Option (List Json) := none

structure Token where
  value : Option Json
  valueUrl : Option String
  span : Option Span
  confidence : Option JsNum
  links : List Json

/-- The `Token` constructor. -/
def mkToken (now : String) (o : TokenOptions) : Except String Token := do
  let sp : Option Span ← match o.span with
    | some so => (mkSpan now so).map some
    | none => pure none
  if o.value.isNone && !(strTruthy o.valueUrl) then
    .error (createValidationError "Token" (some (.str "neither value nor valueUrl"))
      "either value or valueUrl")
  else if o.value.isSome && strTruthy o.valueUrl then
    .error (createValidationError "Token" (some (.str "both value and valueUrl"))
      "either value or valueUrl, not both")
  else if (match o.confidence with
           | some c => !(isValidConfidence c)
           | none => false) then
    .error (createValidationError "Token.confidence" (o.confidence.map Json.num)
      "number between 0 and 1")
  else
    pure ⟨o.value, o.valueUrl, sp, o.confidence, o.links.getD []⟩

def Token.toObject (t : Token) : Except String Json := do
  let fspan : List (String × Json) ← match t.span with
    | some sp => do
        let j ← sp.toObject
        pure [("span", j)]
    | none => pure []
  pure (Json.obj (
    (match t.value with | some v => [("value", v)] | none => []) ++
    (match t.valueUrl with
     | some u => if u == "" then [] else [("valueUrl", Json.str u)]
     | none => []) ++
    fspan ++
    (match t.confidence with | some c => [("confidence", Json.num c)] | none => []) ++
    (if t.links.isEmpty then [] else [("links", Json.arr t.links)])))

/-- The untyped `as TokenOptions` cast of a JSON object. -/
def tokenOptionsOfJson (j : Json) : TokenOptions :=
  { value := j.lookup "value",
    valueUrl := strField j "valueUrl",
    span := (j.lookup "span").map spanOptionsOfJson,
    confidence := numField j "confidence",
    links := arrField j "links" }

/-- `Token.fromObject`: spreads the data into options, except that a
present object-valued `span` is replaced by
`Span.fromObject(span).toObject() as SpanOptions` — the reconstructed
span is *re-rendered* and the rendered strings are cast into the
options, so the constructed token's span holds raw strings. -/
def Token.fromObject (now : String) (data : Json) : Except String Token := do
  let spanOpt : Option SpanOptions ← match data.lookup "span" with
    | none => pure none
    | some sp =>
        if jsTruthy sp && sp.isObj then do
          let s ← Span.fromObject now sp
          let j ← s.toObject
          pure (some (spanOptionsOfJson j))
        else
          pure (some (spanOptionsOfJson sp))
  mkToken now
    { value := data.lookup "value",
      valueUrl := strField data "valueUrl",
      span := spanOpt,
      confidence := numField data "confidence",
      links := arrField data "links" }

structure FeatureOptions where
  mimeType : Option String := none
  tokens : Option (List TokenOptions) := none
  alternates : Option (List (List TokenOptions)) := none
  lang : Option String := none
  encoding : Option String := none
  tokenSchema : Option String := none

structure Feature where
  mimeType : String
  tokens : List Token
  alternates : List (List Token)
  lang : Option String
  encoding : Option String
  tokenSchema : Option String

/-- The `Feature` constructor. -/
def mkFeature (now : String) (o : FeatureOptions) : Except String Feature := do
  if !(strTruthy o.mimeType) then .error "Feature.mimeType is required"
  else match o.tokens with
  | none => .error "Feature.tokens is required"
  | some ts => do
      let toks ← mapE (mkToken now) ts
      let alts ← mapE (mapE (mkToken now)) (o.alternates.getD [])
      if strTruthy o.encoding && !(isValidEncoding (o.encoding.getD "")) then
        .error (createValidationError "Feature.encoding" (o.encoding.map Json.str)
          "\"ISO-8859-1\", \"iso-8859-1\", \"UTF-8\", or \"utf-8\"")
      else
        pure ⟨o.mimeType.getD "", toks, alts, o.lang, o.encoding, o.tokenSchema⟩

def Feature.toObject (f : Feature) : Except String Json := do
  let toks ← mapE Token.toObject f.tokens
  let alts ← mapE (mapE Token.toObject) f.alternates
  pure (Json.obj (
    [("mimeType", Json.str f.mimeType), ("tokens", Json.arr toks)] ++
    (if f.alternates.isEmpty then [] else [("alternates", Json.arr (alts.map Json.arr))]) ++
    (match f.lang with
     | some l => if l == "" then [] else [("lang", Json.str l)]
     | none => []) ++
    (match f.encoding with
     | some e => if e == "" then [] else [("encoding", Json.str e)]
     | none => []) ++
    (match f.tokenSchema with
     | some t => if t == "" then [] else [("tokenSchema", Json.str t)]
     | none => [])))

/-- The untyped `as FeatureOptions` cast of a JSON object. -/
def featureOptionsOfJson (j : Json) : FeatureOptions :=
  { mimeType := strField j "mimeType",
    tokens := (arrField j "tokens").map (fun ts => ts.map tokenOptionsOfJson),
    alternates := (arrField j "alternates").map (fun alts =>
      alts.map (fun alt => match alt with
        | .arr ts => ts.map tokenOptionsOfJson
        | _ => [])),
    lang := strField j "lang",
    encoding := strField j "encoding",
    tokenSchema := strField j "tokenSchema" }

/-- `Feature.fromObject`: each token is reconstructed and re-rendered
(`Token.fromObject(t).toObject() as TokenOptions`); a non-array
`alternates` value would make `.map` throw. -/
def Feature.fromObject (now : String) (data : Json) : Except String Feature := do
  let tokenOptsList : List TokenOptions ← match data.lookup "tokens" with
    | some (.arr ts) =>
        mapE (fun t => do
          let tok ← Token.fromObject now t
          let j ← tok.toObject
          pure (tokenOptionsOfJson j)) ts
    | _ => pure []
  let altsOpt : Option (List (List TokenOptions)) ← match data.lookup "alternates" with
    | none => pure none
    | some (.arr alts) =>
        (mapE (fun alt => match alt with
          | Json.arr ts =>
              mapE (fun t => do
                let tok ← Token.fromObject now t
                let j ← tok.toObject
                pure (tokenOptionsOfJson j)) ts
          | _ => pure []) alts).map some
    | some _ => .error "TypeError: alternates.map is not a function"
  mkFeature now
    { mimeType := strField data "mimeType",
      tokens := some tokenOptsList,
      alternates := altsOpt,
      lang := strField data "lang",
      encoding := strField data "encoding",
      tokenSchema := strField data "tokenSchema" }

structure DialogEventOptions where
  id : Option String := none
  speakerUri : Option String := none
  span : Option SpanOptions := none
  features : Option (List (String × FeatureOptions)) := none
  previousId : Option String := none
  context : Option String := none

structure DialogEvent where
  id : String
  speakerUri : String
  span : Span
  features : List (String × Feature)
  previousId : Option String
  context : Option String

/-- The `DialogEvent` constructor: `id`, `speakerUri`, `span` and
`features` are all required (found under `dialog-event.ts`, in tension
with `types.ts`, which documents `id` as auto-generated and `span` as
optional). -/
def mkDialogEvent (now : String) (o : DialogEventOptions) : Except String DialogEvent := do
  if !(strTruthy o.id) then .error "DialogEvent.id is required"
  else if !(strTruthy o.speakerUri) then .error "DialogEvent.speakerUri is required"
  else match o.span with
  | none => .error "DialogEvent.span is required"
  | some so => match o.features with
    | none => .error "DialogEvent.features is required"
    | some fs => do
        let sp ← mkSpan now so
        let feats ← mapE (fun kv => do
          let f ← mkFeature now kv.2
          pure (kv.1, f)) fs
        pure ⟨o.id.getD "", o.speakerUri.getD "", sp, feats, o.previousId, o.context⟩

def DialogEvent.toObject (d : DialogEvent) : Except String Json := do
  let spj ← d.span.toObject
  let feats ← mapE (fun kv => do
    let j ← Feature.toObject kv.2
    pure (kv.1, j)) d.features
  pure (Json.obj (
    [("id", Json.str d.id), ("speakerUri", Json.str d.speakerUri), ("span", spj),
      ("features", Json.obj feats)] ++
    (match d.previousId with
     | some p => if p == "" then [] else [("previousId", Json.str p)]
     | none => []) ++
    (match d.context with
     | some c => if c == "" then [] else [("context", Json.str c)]
     | none => [])))

/-- Whether a `features` entry survives `DialogEvent.fromObject`'s
filter: a truthy object whose `mimeType` is a string. -/
def keepFeature (v : Json) : Bool :=
  jsTruthy v && (typeofStr v == "object") &&
    (match v.lookup "mimeType" with | some (.str _) => true | _ => false)

/-- `Object.entries` of a decoded JSON value (arrays and strings expose
their indexed elements as enumerable own properties). -/
def jsEntries (j : Json) : List (String × Json) :=
  match j with
  | .obj fs => fs
  | .arr xs => (xs.enum.map (fun iv => (natToString iv.1, iv.2)))
  | .str s => (s.data.enum.map (fun ic => (natToString ic.1, Json.str ⟨[ic.2]⟩)))
  | _ => []

/-- `DialogEvent.fromObject`. The `span` is reconstructed as a `Span`
*instance* and passed as the option (the constructor destructures the
same four fields from it), so the top-level span keeps typed values;
each feature goes through `Feature.fromObject(...).toObject()` and the
untyped cast. -/
def DialogEvent.fromObject (now : String) (data : Json) : Except String DialogEvent := do
  let spInst ← match data.lookup "span" with
    | some sp => Span.fromObject now sp
    | none => .error "TypeError: cannot read properties of undefined"
  let featEntries : List (String × Json) ← match data.lookup "features" with
    | none => .error "TypeError: cannot convert undefined or null to object"
    | some Json.null => .error "TypeError: cannot convert undefined or null to object"
    | some fv => pure (jsEntries fv)
  let feats ← mapE (fun kv => do
    let f ← Feature.fromObject now kv.2
    let j ← f.toObject
    pure (kv.1, featureOptionsOfJson j)) (featEntries.filter (fun kv => keepFeature kv.2))
  mkDialogEvent now
    { speakerUri := strField data "speakerUri",
      span := some spInst.toOptions,
      features := some feats,
      id := strField data "id",
      previousId := strField data "previousId",
      context := strField data "context" }

/-! ## `envelope.ts`: Schema … Envelope -/

structure SchemaOptions where
  version : String
  url : Option String := none

structure Schema where
  version : String
  url : Option String

/-- The `Schema` constructor (no validation). -/
def mkSchema (o : SchemaOptions) : Schema := ⟨o.version, o.url⟩

def Schema.toObject (s : Schema) : Json :=
  Json.obj ([("version", Json.str s.version)] ++
    (match s.url with
     | some u => if u == "" then [] else [("url", Json.str u)]
     | none => []))

def Schema.fromObject (data : Json) : Except String Schema :=
  if !(hasRequiredProperties data ["version"]) then
    .error "Schema requires version"
  else
    .ok (mkSchema
      { version := (strField data "version").getD "",
        url := strField data "url" })

structure IdentificationOptions where
  speakerUri : Option String := none
  serviceUrl : Option String := none
  organization : Option String := none
  conversationalName : Option String := none
  synopsis : Option String := none
  department : Option String := none
  role : Option String := none

structure Identification where
  speakerUri : String
  serviceUrl : String
  organization : String
  conversationalName : String
  synopsis : String
  department : Option String
  role : Option String

/-- The `Identification` constructor: the five named fields must be
truthy; `department`/`role` are stored only when truthy. -/
def mkIdentification (o : IdentificationOptions) : Except String Identification :=
  if !(strTruthy o.speakerUri) then
    .error (createValidationError "Identification.speakerUri"
      (o.speakerUri.map Json.str) "non-empty string")
  else if !(strTruthy o.serviceUrl) then
    .error (createValidationError "Identification.serviceUrl"
      (o.serviceUrl.map Json.str) "non-empty string")
  else if !(strTruthy o.organization) then
    .error (createValidationError "Identification.organization"
      (o.organization.map Json.str) "non-empty string")
  else if !(strTruthy o.conversationalName) then
    .error (createValidationError "Identification.conversationalName"
      (o.conversationalName.map Json.str) "non-empty string")
  else if !(strTruthy o.synopsis) then
    .error (createValidationError "Identification.synopsis"
      (o.synopsis.map Json.str) "non-empty string")
  else
    .ok ⟨o.speakerUri.getD "", o.serviceUrl.getD "", o.organization.getD "",
      o.conversationalName.getD "", o.synopsis.getD "",
      (if strTruthy o.department then o.department else none),
      (if strTruthy o.role then o.role else none)⟩

def Identification.toObject (i : Identification) : Json :=
  Json.obj (
    [("speakerUri", Json.str i.speakerUri), ("serviceUrl", Json.str i.serviceUrl)] ++
    (if i.organization == "" then [] else [("organization", Json.str i.organization)]) ++
    (if i.conversationalName == "" then []
     else [("conversationalName", Json.str i.conversationalName)]) ++
    (match i.department with
     | some d => if d == "" then [] else [("department", Json.str d)]
     | none => []) ++
    (match i.role with
     | some r => if r == "" then [] else [("role", Json.str r)]
     | none => []) ++
    (if i.synopsis == "" then [] else [("synopsis", Json.str i.synopsis)]))

def identificationRequired : List String :=
  ["speakerUri", "serviceUrl", "organization", "conversationalName", "synopsis"]

/-- The untyped read of an identification JSON object into options. -/
def idOptionsOfJson (j : Json) : IdentificationOptions :=
  { speakerUri := strField j "speakerUri",
    serviceUrl := strField j "serviceUrl",
    organization := strField j "organization",
    conversationalName := strField j "conversationalName",
    synopsis := strField j "synopsis",
    department := strField j "department",
    role := strField j "role" }

def Identification.fromObject (data : Json) : Except String Identification :=
  if !(hasRequiredProperties data identificationRequired) then
    .error "Identification requires speakerUri, serviceUrl, organization, conversationalName, and synopsis"
  else
    mkIdentification (idOptionsOfJson data)

structure SupportedLayersOptions where
  input : Option (List Json) := none
  output : Option (List Json) := none

structure SupportedLayers where
  input : List Json
  output : List Json

/-- The `SupportedLayers` constructor: `options.input || ['text']`
(an empty array is truthy and kept). -/
def mkSupportedLayers (o : SupportedLayersOptions) : SupportedLayers :=
  ⟨o.input.getD [Json.str "text"], o.output.getD [Json.str "text"]⟩

def SupportedLayers.toObject (l : SupportedLayers) : Json :=
  Json.obj [("input", Json.arr l.input), ("output", Json.arr l.output)]

def supportedLayersOptionsOfJson (j : Json) : SupportedLayersOptions :=
  { input := arrField j "input", output := arrField j "output" }

def SupportedLayers.fromObject (data : Json) : SupportedLayers :=
  mkSupportedLayers (supportedLayersOptionsOfJson data)

structure CapabilityOptions where
  keyphrases : Option (List Json) := none
  descriptions : Option (List Json) := none
  languages : Option (List Json) := none
  supportedLayers : Option SupportedLayersOptions := none

structure Capability where
  keyphrases : List Json
  descriptions : List Json
  languages : Option (List Json)
  supportedLayers : SupportedLayers

/-- The `Capability` constructor. -/
def mkCapability (o : CapabilityOptions) : Except String Capability :=
  if (match o.keyphrases with | none => true | some ks => ks.isEmpty) then
    .error (createValidationError "Capability.keyphrases" (o.keyphrases.map Json.arr)
      "non-empty array of strings")
  else if (match o.descriptions with | none => true | some ds => ds.isEmpty) then
    .error (createValidationError "Capability.descriptions" (o.descriptions.map Json.arr)
      "non-empty array of strings")
  else
    .ok ⟨o.keyphrases.getD [], o.descriptions.getD [], o.languages,
      mkSupportedLayers (o.supportedLayers.getD {})⟩

def Capability.toObject (c : Capability) : Json :=
  Json.obj (
    [("keyphrases", Json.arr c.keyphrases), ("descriptions", Json.arr c.descriptions),
      ("supportedLayers", c.supportedLayers.toObject)] ++
    (match c.languages with
     | some ls => [("languages", Json.arr ls)]
     | none => []))

def Capability.fromObject (data : Json) : Except String Capability :=
  if !(hasRequiredProperties data ["keyphrases", "descriptions"]) then
    .error "Capability requires keyphrases and descriptions"
  else
    mkCapability
      { keyphrases := arrField data "keyphrases",
        descriptions := arrField data "descriptions",
        languages := arrField data "languages",
        supportedLayers := if (data.lookup "supportedLayers").isSome then
            some (supportedLayersOptionsOfJson (SupportedLayers.fromObject
              ((data.lookup "supportedLayers").getD Json.null)).toObject)
          else none }

def capabilityOptionsOfJson (j : Json) : CapabilityOptions :=
  { keyphrases := arrField j "keyphrases",
    descriptions := arrField j "descriptions",
    languages := arrField j "languages",
    supportedLayers := (j.lookup "supportedLayers").map supportedLayersOptionsOfJson }

structure ManifestOptions where
  identification : Option IdentificationOptions := none
  capabilities : Option (List CapabilityOptions) := none

structure Manifest where
  identification : Identification
  capabilities : List Capability

/-- The `Manifest` constructor. -/
def mkManifest (o : ManifestOptions) : Except String Manifest := do
  match o.identification with
  | none =>
      .error (createValidationError "Manifest.identification" none "Identification object")
  | some io => do
      let id ← mkIdentification io
      let caps ← mapE mkCapability (o.capabilities.getD [])
      pure ⟨id, caps⟩

def Manifest.toObject (m : Manifest) : Json :=
  Json.obj [("identification", m.identification.toObject),
    ("capabilities", Json.arr (m.capabilities.map Capability.toObject))]

def manifestOptionsOfJson (j : Json) : ManifestOptions :=
  { identification := (j.lookup "identification").map idOptionsOfJson,
    capabilities := (arrField j "capabilities").map (fun xs => xs.map capabilityOptionsOfJson) }

def Manifest.fromObject (data : Json) : Except String Manifest := do
  if !(hasRequiredProperties data ["identification", "capabilities"]) then
    .error "Manifest requires identification and capabilities"
  else
    let idObj := (data.lookup "identification").getD Json.null
    if !(hasRequiredProperties idObj identificationRequired) then
      .error "Identification requires all required fields"
    else do
      let capsOpts : List CapabilityOptions ← match data.lookup "capabilities" with
        | some (.arr caps) =>
            mapE (fun capData =>
              if !(hasRequiredProperties capData ["keyphrases", "descriptions"]) then
                .error "Capability requires keyphrases and descriptions"
              else
                .ok
                  ({ keyphrases := arrField capData "keyphrases",
                     descriptions := arrField capData "descriptions",
                     languages := arrField capData "languages",
                     supportedLayers := (capData.lookup "supportedLayers").map
                       supportedLayersOptionsOfJson } : CapabilityOptions)) caps
        | _ => pure []
      mkManifest
        { identification := some (idOptionsOfJson idObj),
          capabilities := some capsOpts }

structure ConversantOptions where
  identification : Option IdentificationOptions := none
  persistentState : Option (List (String × Json)) := none

structure Conversant where
  identification : Identification
  persistentState : List (String × Json)

/-- The `Conversant` constructor. -/
def mkConversant (o : ConversantOptions) : Except String Conversant := do
  match o.identification with
  | none =>
      .error (createValidationError "Conversant.identification" none "Identification object")
  | some io => do
      let id ← mkIdentification io
      pure ⟨id, o.persistentState.getD []⟩

def Conversant.toObject (c : Conversant) : Json :=
  Json.obj ([("identification", c.identification.toObject)] ++
    (if c.persistentState.isEmpty then []
     else [("persistentState", Json.obj c.persistentState)]))

def Conversant.fromObject (data : Json) : Except String Conversant := do
  if !(hasRequiredProperties data ["identification"]) then
    .error "Conversant requires identification"
  else
    let idObj := (data.lookup "identification").getD Json.null
    if !(hasRequiredProperties idObj identificationRequired) then
      .error "Identification requires all required fields"
    else
      mkConversant
        { identification := some (idOptionsOfJson idObj),
          persistentState := objField data "persistentState" }

structure ConversationOptions where
  id : Option String := none
  conversants : Option (List ConversantOptions) := none

structure Conversation where
  id : String
  conversants : List Conversant

/-- The `Conversation` constructor. -/
def mkConversation (o : ConversationOptions) : Except String Conversation := do
  if !(strTruthy o.id) then
    .error "Conversation.id is required"
  else do
    let convs ← mapE mkConversant (o.conversants.getD [])
    pure ⟨o.id.getD "", convs⟩

def Conversation.toObject (c : Conversation) : Json :=
  Json.obj ([("id", Json.str c.id)] ++
    (if c.conversants.isEmpty then []
     else [("conversants", Json.arr (c.conversants.map Conversant.toObject))]))

def Conversation.fromObject (data : Json) : Except String Conversation := do
  if !(hasRequiredProperties data ["id"]) then
    .error "Conversation requires id"
  else do
    let conversantsOpt : Option (List ConversantOptions) ← match data.lookup "conversants" with
      | some (.arr convs) =>
          (mapE (fun convData => do
            if !(hasRequiredProperties convData ["identification"]) then
              .error "Conversant requires identification"
            else
              let idObj := (convData.lookup "identification").getD Json.null
              if !(hasRequiredProperties idObj identificationRequired) then
                .error "Identification requires all required fields"
              else
                .ok
                  ({ identification := some (idOptionsOfJson idObj),
                     persistentState := objField convData "persistentState" }
                    : ConversantOptions)) convs).map some
      | _ => pure none
    mkConversation { id := strField data "id", conversants := conversantsOpt }

structure SenderOptions where
  speakerUri : Option String := none
  serviceUrl : Option String := none

structure Sender where
  speakerUri : String
  serviceUrl : Option String

/-- The `Sender` constructor: `speakerUri` must be truthy and URI-shaped. -/
def mkSender (o : SenderOptions) : Except String Sender :=
  if !(strTruthy o.speakerUri) then
    .error (createValidationError "Sender.speakerUri" (o.speakerUri.map Json.str)
      "non-empty string")
  else if !(isValidUri (o.speakerUri.getD "")) then
    .error (createValidationError "Sender.speakerUri" (o.speakerUri.map Json.str)
      "valid URI format")
  else
    .ok ⟨o.speakerUri.getD "", o.serviceUrl⟩

def Sender.toObject (s : Sender) : Json :=
  Json.obj ([("speakerUri", Json.str s.speakerUri)] ++
    (match s.serviceUrl with
     | some u => if u == "" then [] else [("serviceUrl", Json.str u)]
     | none => []))

def Sender.fromObject (data : Json) : Except String Sender :=
  if !(hasRequiredProperties data ["speakerUri"]) then
    .error "Sender requires speakerUri"
  else
    mkSender
      { speakerUri := strField data "speakerUri",
        serviceUrl := if (data.lookup "serviceUrl").isSome then strField data "serviceUrl"
          else none }

structure ToOptions where
  speakerUri : Option String := none
  serviceUrl : Option String := none
  private? : Option Bool := none

structure To where
  speakerUri : Option String
  serviceUrl : Option String
  private? : Bool

/-- The `To` constructor (`private` is modelled as `private?`). -/
def mkTo (o : ToOptions) : Except String To :=
  if !(strTruthy o.speakerUri) && !(strTruthy o.serviceUrl) then
    .error "To requires at least speakerUri or serviceUrl"
  else
    .ok ⟨o.speakerUri, o.serviceUrl, o.private?.getD false⟩

def To.toObject (t : To) : Json :=
  Json.obj (
    (match t.speakerUri with
     | some s => if s == "" then [] else [("speakerUri", Json.str s)]
     | none => []) ++
    (match t.serviceUrl with
     | some s => if s == "" then [] else [("serviceUrl", Json.str s)]
     | none => []) ++
    (if t.private? then [("private", Json.bool true)] else []))

def toOptionsOfJson (j : Json) : ToOptions :=
  { speakerUri := strField j "speakerUri",
    serviceUrl := strField j "serviceUrl",
    private? := boolField j "private" }

def To.fromObject (data : Json) : Except String To :=
  if !(jsTruthyOpt (data.lookup "speakerUri")) && !(jsTruthyOpt (data.lookup "serviceUrl")) then
    .error "To requires at least speakerUri or serviceUrl"
  else
    mkTo
      { speakerUri := if (data.lookup "speakerUri").isSome then strField data "speakerUri"
          else none,
        serviceUrl := if (data.lookup "serviceUrl").isSome then strField data "serviceUrl"
          else none,
        private? := if (data.lookup "private").isSome then boolField data "private"
          else none }

def allowedEventTypes : List String :=
  ["utterance", "context", "invite", "uninvite", "declineInvite", "bye",
    "getManifests", "publishManifests", "requestFloor", "grantFloor", "revokeFloor",
    "yieldFloor"]

structure BaseEventOptions where
  eventType : Option String := none
  to_ : Option ToOptions := none
  reason : Option String := none
  parameters : Option (List (String × Json)) := none

structure Event where
  eventType : String
  to_ : Option To
  reason : Option String
  parameters : List (String × Json)

/-- The `Event` constructor: the event type must be one of the twelve
`allowedEventTypes` (plural `publishManifests`). -/
def mkEvent (o : BaseEventOptions) : Except String Event := do
  if !(strTruthy o.eventType) || !(allowedEventTypes.contains (o.eventType.getD "")) then
    .error ("Invalid eventType: " ++ (match o.eventType with
      | some s => s
      | none => "undefined"))
  else do
    let t ← match o.to_ with
      | some toOpts => (mkTo toOpts).map some
      | none => pure none
    pure ⟨o.eventType.getD "", t, o.reason, o.parameters.getD []⟩

def Event.toObject (e : Event) : Json :=
  Json.obj ([("eventType", Json.str e.eventType)] ++
    (match e.to_ with
     | some t => [("to", t.toObject)]
     | none => []) ++
    (match e.reason with
     | some r => if r == "" then [] else [("reason", Json.str r)]
     | none => []) ++
    (if e.parameters.isEmpty then [] else [("parameters", Json.obj e.parameters)]))

def Event.fromObject (data : Json) : Except String Event := do
  if !(hasRequiredProperties data ["eventType"]) then
    .error "Event requires eventType"
  else if !(match data.lookup "eventType" with
            | some (.str s) => allowedEventTypes.contains s
            | _ => false) then
    .error "Invalid eventType"
  else do
    let toOpt : Option ToOptions ← match data.lookup "to" with
      | some tj =>
          if jsTruthy tj && typeofStr tj == "object" then do
            let t ← To.fromObject tj
            pure (some (toOptionsOfJson t.toObject))
          else pure none
      | none => pure none
    mkEvent
      { eventType := strField data "eventType",
        to_ := toOpt,
        reason := strField data "reason",
        parameters := objField data "parameters" }

structure EnvelopeOptions where
  schema : Option SchemaOptions := none
  conversation : Option ConversationOptions := none
  sender : Option SenderOptions := none
  events : Option (List BaseEventOptions) := none

structure Envelope where
  schema : Schema
  conversation : Conversation
  sender : Sender
  events : List Event

/-- The `Envelope` constructor. -/
def mkEnvelope (o : EnvelopeOptions) : Except String Envelope := do
  match o.schema, o.conversation, o.sender, o.events with
  | none, _, _, _ => .error "Envelope.schema is required"
  | _, none, _, _ => .error "Envelope.conversation is required"
  | _, _, none, _ => .error "Envelope.sender is required"
  | _, _, _, none => .error "Envelope.events is required"
  | some so, some co, some seo, some evs => do
      let conv ← mkConversation co
      let sender ← mkSender seo
      let events ← mapE mkEvent evs
      pure ⟨mkSchema so, conv, sender, events⟩

def Envelope.toObject (e : Envelope) : Json :=
  Json.obj [("schema", e.schema.toObject), ("conversation", e.conversation.toObject),
    ("sender", e.sender.toObject),
    ("events", Json.arr (e.events.map Event.toObject))]

/-- The conversant re-projection both `Envelope.fromObject` and the
agents' skeleton construction perform: project the conversant to JSON,
re-check the identification fields, and rebuild options. -/
def conversantReproject (c : Conversant) : Except String ConversantOptions := do
  let obj := c.toObject
  let idj := (obj.lookup "identification").getD Json.null
  if !(jsTruthy idj) || !(typeofStr idj == "object") ||
      !(hasRequiredProperties idj identificationRequired) then
    .error "Conversant.identification is missing required fields"
  else
    pure
      { identification := some (idOptionsOfJson idj),
        persistentState := objField obj "persistentState" }

/-- The event re-projection `Envelope.fromObject` performs on each
reconstructed event instance. -/
def eventReproject (e : Event) : Except String BaseEventOptions := do
  let toOpt : Option ToOptions ← match e.to_ with
    | some t => pure (some (toOptionsOfJson t.toObject))
    | none => pure none
  pure
    { eventType := some e.eventType,
      parameters := some e.parameters,
      to_ := toOpt,
      reason := match e.reason with
        | some r => if r == "" then none else some r
        | none => none }

def Envelope.fromObject (data : Json) : Except String Envelope := do
  if !(hasRequiredProperties data ["schema", "conversation", "sender", "events"]) then
    .error "Envelope requires schema, conversation, sender, and events"
  else do
    let schemaObj ← Schema.fromObject ((data.lookup "schema").getD Json.null)
    let conversationObj ← Conversation.fromObject ((data.lookup "conversation").getD Json.null)
    let senderObj ← Sender.fromObject ((data.lookup "sender").getD Json.null)
    let eventsArr ← match data.lookup "events" with
      | some (.arr evs) => mapE Event.fromObject evs
      | _ => pure []
    let convOpts ← if conversationObj.conversants.isEmpty then pure none
      else (mapE conversantReproject conversationObj.conversants).map some
    let evOpts ← mapE eventReproject eventsArr
    mkEnvelope
      { schema := some
          { version := schemaObj.version,
            url := if strTruthy schemaObj.url then schemaObj.url else none },
        conversation := some { id := some conversationObj.id, conversants := convOpts },
        sender := some
          { speakerUri := some senderObj.speakerUri,
            serviceUrl := if strTruthy senderObj.serviceUrl then senderObj.serviceUrl
              else none },
        events := some evOpts }

/-! ## `events.ts`: the twelve event classes and the `createEvent` factory

The subclass instances are modelled by the base `Event` record they
project to (their extra fields are recomputable from `parameters`). -/

/-- The shared `data.to && typeof data.to === 'object'` →
`To.fromObject(data.to).toObject() as ToOptions` read. -/
def readToOption (data : Json) : Except String (Option ToOptions) :=
  match data.lookup "to" with
  | some tj =>
      if jsTruthy tj && typeofStr tj == "object" then do
        let t ← To.fromObject tj
        pure (some (toOptionsOfJson t.toObject))
      else pure none
  | none => pure none

structure UtteranceEventOptions where
  dialogEvent : Option DialogEventOptions := none
  to_ : Option ToOptions := none
  reason : Option String := none

/-- The `UtteranceEvent` constructor: requires a `dialogEvent`,
constructs it (which may throw), and stores its projection under
`parameters.dialogEvent`. -/
def mkUtteranceEvent (now : String) (o : UtteranceEventOptions) : Except String Event := do
  match o.dialogEvent with
  | none =>
      .error (createValidationError "UtteranceEvent.dialogEvent" none "DialogEvent object")
  | some dopts => do
      let de ← mkDialogEvent now dopts
      let dej ← de.toObject
      mkEvent
        { eventType := some "utterance", to_ := o.to_, reason := o.reason,
          parameters := some [("dialogEvent", dej)] }

/-- The untyped `as DialogEventOptions` cast of a JSON object (spans
inside stay raw rendered strings). -/
def dialogEventOptionsOfJson (j : Json) : DialogEventOptions :=
  { id := strField j "id",
    speakerUri := strField j "speakerUri",
    span := (j.lookup "span").map spanOptionsOfJson,
    features := (objField j "features").map (fun fs =>
      fs.map (fun kv => (kv.1, featureOptionsOfJson kv.2))),
    previousId := strField j "previousId",
    context := strField j "context" }

def UtteranceEvent.fromObject (now : String) (data : Json) : Except String Event := do
  match data.lookup "parameters" with
  | some p =>
      if !(jsTruthy p) || !(typeofStr p == "object") then
        .error "UtteranceEvent requires parameters with dialogEvent"
      else match p.lookup "dialogEvent" with
        | some dej =>
            if !(jsTruthy dej) || !(typeofStr dej == "object") then
              .error "UtteranceEvent requires dialogEvent parameter"
            else do
              let de ← DialogEvent.fromObject now dej
              let dej2 ← de.toObject
              let toOpt ← readToOption data
              mkUtteranceEvent now
                { dialogEvent := some (dialogEventOptionsOfJson dej2),
                  reason := strField data "reason", to_ := toOpt }
        | none => .error "UtteranceEvent requires dialogEvent parameter"
  | none => .error "UtteranceEvent requires parameters with dialogEvent"

structure ContextEventOptions where
  dialogHistory : Option (List DialogEventOptions) := none
  to_ : Option ToOptions := none
  reason : Option String := none
  /-- Additional context parameters spread into `parameters`. -/
  extra : List (String × Json) := []

/-- The `ContextEvent` constructor. -/
def mkContextEvent (now : String) (o : ContextEventOptions) : Except String Event := do
  let hist ← mapE (mkDialogEvent now) (o.dialogHistory.getD [])
  let histJs ← mapE DialogEvent.toObject hist
  mkEvent
    { eventType := some "context", to_ := o.to_, reason := o.reason,
      parameters := some ([("dialogHistory", Json.arr histJs)] ++ o.extra) }

/-- `ContextEvent.fromObject`. The mapped history is computed (its
reconstruction errors propagate) but the later `...params` spread
overwrites `dialogHistory` with the raw JSON array, which the
constructor then treats as options. -/
def ContextEvent.fromObject (now : String) (data : Json) : Except String Event := do
  let params : Json := match data.lookup "parameters" with
    | some p => if jsTruthy p then p else Json.obj []
    | none => Json.obj []
  let finalHistory : List DialogEventOptions ← match params.lookup "dialogHistory" with
    | none => pure []
    | some (.arr xs) => do
        let _ ← mapE (fun e => do
          let d ← DialogEvent.fromObject now e
          let j ← d.toObject
          pure (dialogEventOptionsOfJson j)) xs
        pure (xs.map dialogEventOptionsOfJson)
    | some _ => .error "TypeError: dialogHistory.map is not a function"
  let toOpt ← readToOption data
  mkContextEvent now
    { dialogHistory := some finalHistory,
      reason := strField data "reason",
      to_ := toOpt,
      extra := (jsEntries params).filter (fun kv =>
        !(kv.1 == "dialogHistory" || kv.1 == "to" || kv.1 == "reason")) }

structure ToReasonOptions where
  to_ : Option ToOptions := none
  reason : Option String := none

def mkInviteEvent (o : ToReasonOptions) : Except String Event :=
  mkEvent
    { eventType := some "invite", to_ := o.to_, reason := o.reason,
      parameters := some [] }

def mkUninviteEvent (o : ToReasonOptions) : Except String Event :=
  mkEvent
    { eventType := some "uninvite", to_ := o.to_, reason := o.reason,
      parameters := some [] }

def mkDeclineInviteEvent (o : ToReasonOptions) : Except String Event :=
  mkEvent
    { eventType := some "declineInvite", to_ := o.to_, reason := o.reason,
      parameters := some [] }

def mkByeEvent (o : ToReasonOptions) : Except String Event :=
  mkEvent
    { eventType := some "bye", to_ := o.to_, reason := o.reason,
      parameters := some [] }

def mkRequestFloorEvent (o : ToReasonOptions) : Except String Event :=
  mkEvent
    { eventType := some "requestFloor", to_ := o.to_, reason := o.reason,
      parameters := some [] }

def mkGrantFloorEvent (o : ToReasonOptions) : Except String Event :=
  mkEvent
    { eventType := some "grantFloor", to_ := o.to_, reason := o.reason,
      parameters := some [] }

def mkRevokeFloorEvent (o : ToReasonOptions) : Except String Event :=
  mkEvent
    { eventType := some "revokeFloor", to_ := o.to_, reason := o.reason,
      parameters := some [] }

def mkYieldFloorEvent (o : ToReasonOptions) : Except String Event :=
  mkEvent
    { eventType := some "yieldFloor", to_ := o.to_, reason := o.reason,
      parameters := some [] }

/-- The shared `fromObject` of the parameterless event classes. -/
def simpleEventFromObject (mk : ToReasonOptions → Except String Event)
    (data : Json) : Except String Event := do
  let toOpt ← readToOption data
  mk { to_ := toOpt, reason := strField data "reason" }

structure GetManifestsEventOptions where
  recommendScope : Option String := none
  to_ : Option ToOptions := none
  reason : Option String := none

def mkGetManifestsEvent (o : GetManifestsEventOptions) : Except String Event :=
  mkEvent
    { eventType := some "getManifests", to_ := o.to_, reason := o.reason,
      parameters := some [("recommendScope", Json.str (o.recommendScope.getD "internal"))] }

def GetManifestsEvent.fromObject (data : Json) : Except String Event := do
  let scope : Option String := match data.lookup "parameters" with
    | some p => (match p.lookup "recommendScope" with
        | some (.str s) => some s
        | _ => none)
    | none => none
  let toOpt ← readToOption data
  mkGetManifestsEvent
    { recommendScope := scope, reason := strField data "reason", to_ := toOpt }

structure PublishManifestsEventOptions where
  servicingManifests : Option (List ManifestOptions) := none
  discoveryManifests : Option (List ManifestOptions) := none
  to_ : Option ToOptions := none
  reason : Option String := none

/-- The `PublishManifestsEvent` constructor (`events.ts` class named
with the plural; the agents file imports it as `PublishManifestEvent`):
reconstructs the manifests via `new Manifest(...)` and stores their
projections under `parameters`. -/
def mkPublishManifestsEvent (o : PublishManifestsEventOptions) : Except String Event := do
  let servicing ← mapE mkManifest (o.servicingManifests.getD [])
  let discovery ← mapE mkManifest (o.discoveryManifests.getD [])
  mkEvent
    { eventType := some "publishManifests", to_ := o.to_, reason := o.reason,
      parameters := some [("servicingManifests", Json.arr (servicing.map Manifest.toObject)),
        ("discoveryManifests", Json.arr (discovery.map Manifest.toObject))] }

def PublishManifestsEvent.fromObject (data : Json) : Except String Event := do
  let params : Json := match data.lookup "parameters" with
    | some p => if jsTruthy p then p else Json.obj []
    | none => Json.obj []
  let sv : List ManifestOptions := match params.lookup "servicingManifests" with
    | some (.arr xs) => xs.map manifestOptionsOfJson
    | _ => []
  let dv : List ManifestOptions := match params.lookup "discoveryManifests" with
    | some (.arr xs) => xs.map manifestOptionsOfJson
    | _ => []
  let toOpt ← readToOption data
  mkPublishManifestsEvent
    { servicingManifests := some sv, discoveryManifests := some dv,
      reason := strField data "reason", to_ := toOpt }

/-- `events.ts` `createEvent`: the tag-dispatch factory. -/
def createEvent (now : String) (data : Json) : Except String Event :=
  match data.lookup "eventType" with
  | some (.str "utterance") => UtteranceEvent.fromObject now data
  | some (.str "context") => ContextEvent.fromObject now data
  | some (.str "invite") => simpleEventFromObject mkInviteEvent data
  | some (.str "uninvite") => simpleEventFromObject mkUninviteEvent data
  | some (.str "declineInvite") => simpleEventFromObject mkDeclineInviteEvent data
  | some (.str "bye") => simpleEventFromObject mkByeEvent data
  | some (.str "getManifests") => GetManifestsEvent.fromObject data
  | some (.str "publishManifests") => PublishManifestsEvent.fromObject data
  | some (.str "requestFloor") => simpleEventFromObject mkRequestFloorEvent data
  | some (.str "grantFloor") => simpleEventFromObject mkGrantFloorEvent data
  | some (.str "revokeFloor") => simpleEventFromObject mkRevokeFloorEvent data
  | some (.str "yieldFloor") => simpleEventFromObject mkYieldFloorEvent data
  | some (.str s) => .error ("Unknown event type: " ++ s)
  | some v => .error ("Unknown event type: " ++ typeofStr v)
  | none => .error "Unknown event type: undefined"

/-! ## `agents.ts`: OpenFloorAgent, BotAgent, FloorManager

`processEnvelope` builds a skeleton outbound envelope and dispatches to
the variant's `onEnvelope` handler, modelled synchronously. The handlers
"append" response events with `(outEnvelope as any)._events = [...outEnvelope.events, e]`,
but the `Envelope` class field is named `events`, so each write lands on
a dead expando property (modelled as `shadowEvents`) and re-reads the
unchanged `events`; the returned envelope's `events` list never changes. -/

/-- `addressedToMe` for one event:
`!event.to || event.to.speakerUri === this.speakerUri || event.to.serviceUrl === this.serviceUrl`. -/
def addressedToMe (speakerUri serviceUrl : String) (e : Event) : Bool :=
  match e.to_ with
  | none => true
  | some t => t.speakerUri == some speakerUri || t.serviceUrl == some serviceUrl

/-- `OpenFloorAgent.addMetadata`. -/
def addMetadata (speakerUri serviceUrl : String) (events : List Event) :
    List (Event × Bool) :=
  events.map (fun e => (e, addressedToMe speakerUri serviceUrl e))

/-- The mutable state of a `BotAgent`. -/
structure BotState where
  currentContext : List Event
  activeConversation : Option Conversation
  hasFloor : Bool

def initialBotState : BotState := ⟨[], none, false⟩

/-- The outbound envelope as the handlers see it: the `Envelope`
instance plus the `_events` expando property the mutation writes. -/
structure OutEnv where
  env : Envelope
  shadowEvents : Option (List Event)

/-- `processEnvelope`'s skeleton outbound envelope: same schema
version/url and conversation identity, this agent as sender, no events. -/
def outSkeleton (m : Manifest) (inEnv : Envelope) : Except String Envelope := do
  let convOpts ← if inEnv.conversation.conversants.isEmpty then pure none
    else (mapE conversantReproject inEnv.conversation.conversants).map some
  mkEnvelope
    { schema := some
        { version := inEnv.schema.version,
          url := if strTruthy inEnv.schema.url then inEnv.schema.url else none },
      conversation := some { id := some inEnv.conversation.id, conversants := convOpts },
      sender := some
        { speakerUri := some m.identification.speakerUri,
          serviceUrl := some m.identification.serviceUrl },
      events := some [] }

/-- `BotAgent._handleUtterance`'s canned response construction: a
`DialogEvent` built with neither `id` nor `span`. -/
def botUtteranceResponse (now : String) (speakerUri : String) : Except String Event :=
  mkUtteranceEvent now
    { dialogEvent := some
        { speakerUri := some speakerUri,
          features := some [("text",
            { mimeType := some "text/plain",
              tokens := some [{ value := some (Json.str
                "Sorry! I\x27m a simple bot that has not been programmed to do anything yet.") }] })] } }

/-- `BotAgent._handleEvent`: dispatch one addressed event. -/
def botHandleEvent (now : String) (m : Manifest) (inEnv : Envelope)
    (st : BotState) (out : OutEnv) (e : Event) : Except String (BotState × OutEnv) :=
  if e.eventType == "invite" then do
    let conv ← mkConversation { id := some inEnv.conversation.id }
    let _ ← mkGrantFloorEvent
      { reason := some "Automatic floor grant as a result of invitation" }
    pure ({ st with activeConversation := some conv, hasFloor := true }, out)
  else if e.eventType == "utterance" then do
    let responseEvent ← botUtteranceResponse now m.identification.speakerUri
    pure (st, { out with shadowEvents := some (out.env.events ++ [responseEvent]) })
  else if e.eventType == "context" then
    pure ({ st with currentContext := st.currentContext ++ [e] }, out)
  else if e.eventType == "uninvite" then
    pure ({ st with activeConversation := none, hasFloor := false }, out)
  else if e.eventType == "grantFloor" then
    pure ({ st with hasFloor := true }, out)
  else if e.eventType == "revokeFloor" then
    pure ({ st with hasFloor := false }, out)
  else if e.eventType == "getManifests" then do
    let responseEvent ← mkPublishManifestsEvent
      { servicingManifests := some [manifestOptionsOfJson m.toObject],
        discoveryManifests := some [] }
    pure (st, { out with shadowEvents := some (out.env.events ++ [responseEvent]) })
  else
    pure (st, out)

/-- Sequential event processing; a thrown error stops the loop, keeping
the state and output accumulated so far. -/
def botProcessEvents (now : String) (m : Manifest) (inEnv : Envelope) :
    BotState → OutEnv → List Event → BotState × OutEnv × Option String
  | st, out, [] => (st, out, none)
  | st, out, e :: rest =>
      match botHandleEvent now m inEnv st out e with
      | .ok (st', out') => botProcessEvents now m inEnv st' out' rest
      | .error msg => (st, out, some msg)

/-- The events `BotAgent._handleEnvelope` dispatches: those whose
metadata marks them addressed to this agent. -/
def botMyEvents (speakerUri serviceUrl : String) (events : List Event) : List Event :=
  ((addMetadata speakerUri serviceUrl events).filter (fun em => em.2)).map (fun em => em.1)

/-- `BotAgent._handleEnvelope`: clear the context, check for a
conversation conflict, then process the addressed events in order. -/
def botHandleEnvelope (now : String) (m : Manifest) (st : BotState) (inEnv : Envelope)
    (out : OutEnv) : BotState × OutEnv × Option String :=
  let st1 := { st with currentContext := [] }
  let conflict := match st1.activeConversation with
    | some conv => conv.id != inEnv.conversation.id
    | none => false
  if conflict then
    (st1, out, some "Bot is already in a different conversation")
  else
    botProcessEvents now m inEnv st1 out
      (botMyEvents m.identification.speakerUri m.identification.serviceUrl inEnv.events)

/-- `BotAgent.processEnvelope`: build the skeleton and run the handler.
The returned `OutEnv.env` is the envelope the caller receives. -/
def botProcessEnvelope (now : String) (m : Manifest) (st : BotState) (inEnv : Envelope) :
    Except String (BotState × OutEnv × Option String) := do
  let skel ← outSkeleton m inEnv
  pure (botHandleEnvelope now m st inEnv { env := skel, shadowEvents := none })

/-- The mutable state of a `FloorManager`. -/
structure FMState where
  activeConversants : List (String × Manifest)
  currentSpeaker : Option String

def initialFMState : FMState := ⟨[], none⟩

/-- `FloorManager._forwardEvent`: floor bookkeeping, then the
unconditional forward. Every "append" reads the unchanged
`outEnvelope.events` (always `[]`) and writes the dead `_events`
property. -/
def fmForwardEvent (sender : Sender) (st : FMState) (out : OutEnv) (e : Event) :
    Except String (FMState × OutEnv) := do
  if e.eventType == "bye" then
    let senderUri := sender.speakerUri
    let st1 : FMState :=
      { activeConversants := st.activeConversants.filter (fun kv => kv.1 ≠ senderUri),
        currentSpeaker := if st.currentSpeaker = some senderUri then none
          else st.currentSpeaker }
    pure (st1, { out with shadowEvents := some (out.env.events ++ [e]) })
  else if e.eventType == "requestFloor" then do
    let grantEvent ← mkGrantFloorEvent
      { to_ := some { speakerUri := some sender.speakerUri } }
    let out1 := { out with shadowEvents := some (out.env.events ++ [grantEvent]) }
    let st1 := { st with currentSpeaker := some sender.speakerUri }
    pure (st1, { out1 with shadowEvents := some (out1.env.events ++ [e]) })
  else
    pure (st, { out with shadowEvents := some (out.env.events ++ [e]) })

def fmProcessEvents (sender : Sender) :
    FMState → OutEnv → List Event → Except String (FMState × OutEnv)
  | st, out, [] => .ok (st, out)
  | st, out, e :: rest => do
      let (st', out') ← fmForwardEvent sender st out e
      fmProcessEvents sender st' out' rest

/-- `FloorManager._handleEnvelope`: forward every inbound event (no
addressing filter). -/
def fmHandleEnvelope (st : FMState) (inEnv : Envelope) (out : OutEnv) :
    Except String (FMState × OutEnv) :=
  fmProcessEvents inEnv.sender st out inEnv.events

/-- `FloorManager.processEnvelope`. -/
def fmProcessEnvelope (m : Manifest) (st : FMState) (inEnv : Envelope) :
    Except String (FMState × OutEnv) := do
  let skel ← outSkeleton m inEnv
  fmHandleEnvelope st inEnv { env := skel, shadowEvents := none }

/-! ## `validation.ts`: SimpleValidator

The regex engine (`new RegExp(pattern).test(s)`) is modelled as a total
oracle `rt : String → String → Bool`, so the `try/catch` wrapper in
`validate` has no reachable throw site in the embedding. The recursion of
`_validateObject` descends only into strict subterms of the schema, so a
fuel of `Json.size schema` never runs out; the fuel-0 branch is
unreachable from `SimpleValidator.validate`. -/

def Json.isArr : Json → Bool
  | .arr _ => true
  | _ => false

/-- JavaScript `===` / SameValueZero on decoded JSON values. Two decoded
objects or arrays are distinct heap references, hence never `===`. -/
def jsStrictEq : Json → Json → Bool
  | .null, .null => true
  | .bool a, .bool b => a == b
  | .num a, .num b => jsNumEq a b
  | .str a, .str b => a == b
  | _, _ => false

/-- Decimal rendering of a JavaScript number `mant / 10 ^ exp`
(template interpolation / `String()`): integer part, then the fractional
digits with trailing zeros trimmed. -/
def jsNumToString (n : JsNum) : String :=
  let sign := if n.mant < 0 then "-" else ""
  let a := n.mant.natAbs
  let p := (10 : Nat) ^ n.exp
  if a % p == 0 then sign ++ natToString (a / p)
  else
    let ds := natToDigits (a % p)
    let padded := List.replicate (n.exp - ds.length) (Char.ofNat 48) ++ ds
    let frac := (padded.reverse.dropWhile (fun c => c == Char.ofNat 48)).reverse
    sign ++ natToString (a / p) ++ "." ++ ⟨frac⟩

mutual

/-- JavaScript string coercion `String(j)` of a decoded JSON value;
arrays render as `Array.prototype.join(',')`, whose elements render
`null`/`undefined` as the empty string. -/
def jsToString : Json → String
  | .null => "null"
  | .bool b => if b then "true" else "false"
  | .num n => jsNumToString n
  | .str s => s
  | .obj _ => "[object Object]"
  | .arr xs => jsToStringElems xs

def jsToStringElems : List Json → String
  | [] => ""
  | [.null] => ""
  | [x] => jsToString x
  | .null :: xs => "," ++ jsToStringElems xs
  | x :: xs => jsToString x ++ "," ++ jsToStringElems xs

end

/-- An element as `Array.prototype.join` renders it (`null` and
`undefined` become the empty string). -/
def jsJoinElem (e : Json) : String :=
  match e with
  | .null => ""
  | x => jsToString x

/-- JSON string-literal escaping for `JSON.stringify`. -/
def jsonEscapeChar (c : Char) : String :=
  if c == Char.ofNat 34 then "\\\""
  else if c == Char.ofNat 92 then "\\\\"
  else if c == Char.ofNat 10 then "\\n"
  else if c == Char.ofNat 13 then "\\r"
  else if c == Char.ofNat 9 then "\\t"
  else ⟨[c]⟩

def jsonQuote (s : String) : String :=
  "\"" ++ String.join (s.data.map jsonEscapeChar) ++ "\""

mutual

/-- `JSON.stringify(j)` of a decoded JSON value. -/
def jsonStringify : Json → String
  | .null => "null"
  | .bool b => if b then "true" else "false"
  | .num n => jsNumToString n
  | .str s => jsonQuote s
  | .arr xs => "[" ++ jsonStringifyElems xs ++ "]"
  | .obj fs => "\x7b" ++ jsonStringifyFields fs ++ "\x7d"

def jsonStringifyElems : List Json → String
  | [] => ""
  | [x] => jsonStringify x
  | x :: xs => jsonStringify x ++ "," ++ jsonStringifyElems xs

def jsonStringifyFields : List (String × Json) → String
  | [] => ""
  | [kv] => jsonQuote kv.1 ++ ":" ++ jsonStringify kv.2
  | kv :: fs => jsonQuote kv.1 ++ ":" ++ jsonStringify kv.2 ++ "," ++ jsonStringifyFields fs

end

mutual

/-- An executable structural size of a decoded JSON value, used as the
validator fuel bound. -/
def Json.size : Json → Nat
  | .null => 1
  | .bool _ => 1
  | .num _ => 1
  | .str _ => 1
  | .arr xs => 1 + Json.sizeElems xs
  | .obj fs => 1 + Json.sizeFields fs

def Json.sizeElems : List Json → Nat
  | [] => 0
  | x :: xs => 1 + Json.size x + Json.sizeElems xs

def Json.sizeFields : List (String × Json) → Nat
  | [] => 0
  | kv :: fs => 1 + Json.size kv.2 + Json.sizeFields fs

end

/-- The `in` operator on a decoded JSON value (arrays additionally own
their index keys and `length`). -/
def jsHasProp (j : Json) (k : String) : Bool :=
  match j with
  | .obj fs => (lookupField fs k).isSome
  | .arr xs => (lookupField (jsEntries (.arr xs)) k).isSome || k == "length"
  | _ => false

/-- Property read `j[k]` on a decoded JSON value. -/
def jsGetProp (j : Json) (k : String) : Option Json :=
  match j with
  | .obj fs => lookupField fs k
  | .arr xs =>
      if k == "length" then some (Json.num ⟨(xs.length : Int), 0⟩)
      else lookupField (jsEntries (.arr xs)) k
  | _ => none

/-- One pushed validation error: `(path or root) + ": " + message`. -/
def emitErr (path msg : String) : String :=
  (if path == "" then "root" else path) ++ ": " ++ msg

/-- Strict equality of a schema field against a string literal
(`schema.type === 'array'` and friends). -/
def typeStrEq (t : Json) (s : String) : Bool :=
  match t with
  | .str v => v == s
  | _ => false

/-- The type section of `_validateObject` (`schema.type`), whose failure
returns early with a single error. -/
def typeSection (data schema : Json) (path : String) : Option String :=
  match schema.lookup "type" with
  | some t =>
      if jsTruthy t then
        if typeStrEq t "array" then
          if data.isArr then none
          else some (emitErr path ("expected array, got " ++ typeofStr data))
        else if typeStrEq t (typeofStr data) then none
        else if typeStrEq t "object" && jsTruthy data && typeofStr data == "object" then
          none
        else some (emitErr path ("expected " ++ jsToString t ++ ", got " ++ typeofStr data))
      else none
  | none => none

/-- Required-properties section of `_validateObject`. -/
def requiredSection (data schema : Json) (path : String) : List String :=
  match schema.lookup "required" with
  | some (.arr reqs) =>
      if jsTruthy data && typeofStr data == "object" then
        reqs.filterMap (fun r =>
          if jsHasProp data (jsToString r) then none
          else some (emitErr path
            ("missing required property \x27" ++ jsToString r ++ "\x27")))
      else []
  | _ => []

/-- Properties section of `_validateObject`; `rec` is the recursive
validation of a present property value against its sub-schema. -/
def propsSection (rec : Json → Json → String → List String)
    (data schema : Json) (path : String) : List String :=
  match schema.lookup "properties" with
  | some props =>
      if jsTruthy props && jsTruthy data && typeofStr data == "object" then
        (jsEntries props).flatMap (fun kv =>
          if jsHasProp data kv.1 then
            rec ((jsGetProp data kv.1).getD Json.null) kv.2
              (if path == "" then kv.1 else path ++ "." ++ kv.1)
          else [])
      else []
  | none => []

/-- Pattern-properties section of `_validateObject`. -/
def patPropsSection (rt : String → String → Bool)
    (rec : Json → Json → String → List String)
    (data schema : Json) (path : String) : List String :=
  match schema.lookup "patternProperties" with
  | some pats =>
      if jsTruthy pats && jsTruthy data && typeofStr data == "object" then
        (jsEntries pats).flatMap (fun pkv =>
          (jsEntries data).flatMap (fun dkv =>
            if rt pkv.1 dkv.1 then
              rec dkv.2 pkv.2 (if path == "" then dkv.1 else path ++ "." ++ dkv.1)
            else []))
      else []
  | none => []

/-- Array-items section of `_validateObject`. -/
def itemsSection (rec : Json → Json → String → List String)
    (data schema : Json) (path : String) : List String :=
  match schema.lookup "items" with
  | some items =>
      if jsTruthy items then
        match data with
        | .arr xs =>
            xs.enum.flatMap (fun iv =>
              rec iv.2 items (path ++ "[" ++ natToString iv.1 ++ "]"))
        | _ => []
      else []
  | none => []

/-- Enum section of `_validateObject`. -/
def enumSection (data schema : Json) (path : String) : List String :=
  match schema.lookup "enum" with
  | some (.arr es) =>
      if es.any (fun e => jsStrictEq e data) then []
      else [emitErr path ("value must be one of [" ++
        String.intercalate ", " (es.map jsJoinElem) ++
        "], got " ++ jsonStringify data)]
  | _ => []

/-- Number-range section (`minimum`/`maximum`) of `_validateObject`. -/
def rangeSection (data schema : Json) (path : String) : List String :=
  match data with
  | .num n =>
      (match schema.lookup "minimum" with
       | some (.num m) =>
           if jsNumLt n m then
             [emitErr path ("value " ++ jsNumToString n ++
               " is below minimum " ++ jsNumToString m)]
           else []
       | _ => []) ++
      (match schema.lookup "maximum" with
       | some (.num m) =>
           if jsNumLt m n then
             [emitErr path ("value " ++ jsNumToString n ++
               " is above maximum " ++ jsNumToString m)]
           else []
       | _ => [])
  | _ => []

/-- String-pattern section of `_validateObject`. -/
def patternSection (rt : String → String → Bool)
    (data schema : Json) (path : String) : List String :=
  match data with
  | .str s =>
      (match schema.lookup "pattern" with
       | some p =>
           if jsTruthy p then
             if rt (jsToString p) s then []
             else [emitErr path ("string does not match pattern " ++ jsToString p)]
           else []
       | none => [])
  | _ => []

/-- AnyOf section of `_validateObject`: the collected sub-errors are
discarded in the source, only the generic message is pushed. -/
def anyOfSection (rec : Json → Json → String → List String)
    (data schema : Json) (path : String) : List String :=
  match schema.lookup "anyOf" with
  | some (.arr subs) =>
      if subs.any (fun sub => (rec data sub path).isEmpty) then []
      else [emitErr path "value does not match any of the allowed schemas"]
  | _ => []

/-- `SimpleValidator._validateObject`, fuelled on the schema's size. The
section order (type with early return, required, properties,
patternProperties, items, enum, minimum/maximum, pattern, anyOf) and the
path construction follow the source. -/
def validateGo (rt : String → String → Bool) :
    Nat → Json → Json → String → List String
  | 0, _, _, _ => []
  | fuel + 1, data, schema, path =>
    match typeSection data schema path with
    | some e => [e]
    | none =>
        requiredSection data schema path ++
        propsSection (fun d s p => validateGo rt fuel d s p) data schema path ++
        patPropsSection rt (fun d s p => validateGo rt fuel d s p) data schema path ++
        itemsSection (fun d s p => validateGo rt fuel d s p) data schema path ++
        enumSection data schema path ++
        rangeSection data schema path ++
        patternSection rt data schema path ++
        anyOfSection (fun d s p => validateGo rt fuel d s p) data schema path

structure ValidationResult where
  valid : Bool
  errors : List String
deriving DecidableEq, Repr

/-- `SimpleValidator.validate`: run `_validateObject` at the root path
and report `valid` iff no error accumulated. -/
def SimpleValidator.validate (rt : String → String → Bool)
    (data schema : Json) : ValidationResult :=
  let errors := validateGo rt (Json.size schema) data schema ""
  { valid := errors.isEmpty, errors := errors }

/-! ## Round-trip lemmas for the canonical projections -/

theorem exBindOk {α β : Type} (a : α) (f : α → Except String β) :
    (Except.ok a >>= f : Except String β) = f a := rfl

theorem exPure {α : Type} (a : α) : (pure a : Except String α) = Except.ok a := rfl

def botManifestOptions : ManifestOptions :=
  { identification := some
      { speakerUri := some "tag:example.com,2025:bot1",
        serviceUrl := some "https://example.com/bot",
        organization := some "Example Corp",
        conversationalName := some "Assistant",
        synopsis := some "A demo bot" } }

def botManifest : Manifest :=
  ⟨⟨"tag:example.com,2025:bot1", "https://example.com/bot", "Example Corp",
    "Assistant", "A demo bot", none, none⟩, []⟩

/-- An inbound envelope from a user carrying one event of the given type
(no `to` targeting, so it is addressed to every agent). -/
def inEnvWith (et : String) : Envelope :=
  ⟨⟨"1.0.0", none⟩, ⟨"conv:1", []⟩, ⟨"tag:example.com,2025:user", none⟩,
    [⟨et, none, none, []⟩]⟩

def inEnvOptionsWith (et : String) : EnvelopeOptions :=
  { schema := some { version := "1.0.0" },
    conversation := some { id := some "conv:1" },
    sender := some { speakerUri := some "tag:example.com,2025:user" },
    events := some [{ eventType := some et }] }

/-- The skeleton outbound envelope the bot builds for `inEnvWith`. -/
def outSkelBot : Envelope :=
  ⟨⟨"1.0.0", none⟩, ⟨"conv:1", []⟩,
    ⟨"tag:example.com,2025:bot1", some "https://example.com/bot"⟩, []⟩

/-- C2: the spec says an addressed utterance yields an outbound envelope
with exactly one appended canned utterance; in the code the canned
`DialogEvent` is built without the required `id`, so the handler throws
`DialogEvent.id is required`, nothing is ever appended, and the
outbound envelope's `events` list stays empty. -/
theorem claim_C2 :
    mkManifest botManifestOptions = .ok botManifest ∧
    mkEnvelope (inEnvOptionsWith "utterance") = .ok (inEnvWith "utterance") ∧
    botProcessEnvelope "2025-01-01T00:00:00.000Z" botManifest initialBotState
        (inEnvWith "utterance") =
      .ok (⟨[], none, false⟩, ⟨outSkelBot, none⟩, some "DialogEvent.id is required") ∧
    outSkelBot.events = [] :=
  ⟨rfl, rfl, rfl, rfl⟩

/-- C4: the spec says a `getManifests` event makes the bot append one
`publishManifests` event carrying its own manifest; the code builds that
event, but the append writes the dead `_events` expando property
(`shadowEvents`), so the returned envelope's `events` list stays empty;
only the shadow property holds the publish event (with the agent's own
manifest as the sole servicing manifest). -/
theorem claim_C4 :
    mkManifest botManifestOptions = .ok botManifest ∧
    mkEnvelope (inEnvOptionsWith "getManifests") = .ok (inEnvWith "getManifests") ∧
    botProcessEnvelope "2025-01-01T00:00:00.000Z" botManifest initialBotState
        (inEnvWith "getManifests") =
      .ok (⟨[], none, false⟩,
        ⟨outSkelBot,
          some [⟨"publishManifests", none, none,
            [("servicingManifests", Json.arr [botManifest.toObject]),
              ("discoveryManifests", Json.arr [])]⟩]⟩, none) ∧
    outSkelBot.events = [] :=
  ⟨rfl, rfl, rfl, rfl⟩

/-- C5: the spec says the floor manager inserts a synthesized GrantFloor
before the forwarded `requestFloor` in the outbound event list; in the
code both the grant write and the forward write land on the dead
`_events` expando property and each re-reads the unchanged empty
`events`, so the grant is overwritten by the forward, the shadow holds
only the forwarded `requestFloor`, and the returned envelope's `events`
list stays empty; `currentSpeaker` is still set to the sender. -/
theorem claim_C5 :
    mkManifest botManifestOptions = .ok botManifest ∧
    mkEnvelope (inEnvOptionsWith "requestFloor") = .ok (inEnvWith "requestFloor") ∧
    mkGrantFloorEvent { to_ := some { speakerUri := some "tag:example.com,2025:user" } } =
      .ok ⟨"grantFloor", some ⟨some "tag:example.com,2025:user", none, false⟩, none, []⟩ ∧
    fmProcessEnvelope botManifest initialFMState (inEnvWith "requestFloor") =
      .ok (⟨[], some "tag:example.com,2025:user"⟩,
        ⟨outSkelBot, some [⟨"requestFloor", none, none, []⟩]⟩) ∧
    outSkelBot.events = [] :=
  ⟨rfl, rfl, rfl, rfl, rfl⟩

/-- C3 counterexample: on a conversation conflict the handler does raise
`Bot is already in a different conversation` before processing any event
and leaves `activeConversation`/`hasFloor`/the outbound envelope
untouched — but `currentContext` has already been cleared (the source
clears it before the conflict check), so the state is mutated before the
error is raised, contrary to the claim. -/
theorem claim_C3_counterexample :
    botHandleEnvelope "2025-01-01T00:00:00.000Z" botManifest
        ⟨[⟨"context", none, none, []⟩], some ⟨"conv:A", []⟩, true⟩
        (inEnvWith "utterance") ⟨outSkelBot, none⟩ =
      (⟨[], some ⟨"conv:A", []⟩, true⟩, ⟨outSkelBot, none⟩,
        some "Bot is already in a different conversation") ∧
    (BotState.currentContext
        ⟨[⟨"context", none, none, []⟩], some ⟨"conv:A", []⟩, true⟩) ≠ [] :=
  ⟨rfl, by simp⟩

/-- C3 (amended): when the bot is bound to a conversation whose id
differs from the inbound one, `_handleEnvelope` fails with the
conversation-conflict error before processing any event; the outbound
envelope, `activeConversation` and `hasFloor` are unchanged, but
`currentContext` has already been cleared. -/
theorem claim_C3_amended (now : String) (m : Manifest) (st : BotState)
    (inEnv : Envelope) (out : OutEnv) (conv : Conversation)
    (hc : st.activeConversation = some conv)
    (hne : conv.id ≠ inEnv.conversation.id) :
    botHandleEnvelope now m st inEnv out =
      ({ st with currentContext := [] }, out,
        some "Bot is already in a different conversation") := by
  simp [botHandleEnvelope, hc, hne]

/-- C3 witness: the amended conflict behaviour at a concrete bound
conversation. -/
theorem claim_C3_amended_witness :
    botHandleEnvelope "2025-01-01T00:00:00.000Z" botManifest
        ⟨[⟨"context", none, none, []⟩], some ⟨"conv:A", []⟩, true⟩
        (inEnvWith "utterance") ⟨outSkelBot, none⟩ =
      ({ BotState.mk [⟨"context", none, none, []⟩] (some ⟨"conv:A", []⟩) true with
          currentContext := [] }, ⟨outSkelBot, none⟩,
        some "Bot is already in a different conversation") :=
  claim_C3_amended "2025-01-01T00:00:00.000Z" botManifest
    ⟨[⟨"context", none, none, []⟩], some ⟨"conv:A", []⟩, true⟩
    (inEnvWith "utterance") ⟨outSkelBot, none⟩ ⟨"conv:A", []⟩ rfl (by decide)

/-- C6: the events a `BotAgent` dispatches are exactly those passing the
addressing predicate — `to` absent, or `to.speakerUri` equal to the
agent's speakerUri, or `to.serviceUrl` equal to the agent's serviceUrl;
an event failing the predicate is never in the dispatched list (so it
causes no state change and no outbound event). -/
theorem claim_C6 (su sv : String) (events : List Event) :
    (botMyEvents su sv events = events.filter (fun e => addressedToMe su sv e)) ∧
    (∀ e : Event, addressedToMe su sv e = true ↔
      (e.to_ = none ∨ ∃ t, e.to_ = some t ∧
        (t.speakerUri = some su ∨ t.serviceUrl = some sv))) ∧
    (∀ e : Event, addressedToMe su sv e = false → e ∉ botMyEvents su sv events) := by
  have h1 : botMyEvents su sv events = events.filter (fun e => addressedToMe su sv e) := by
    simp [botMyEvents, addMetadata, List.filter_map, List.map_map, Function.comp_def]
  refine ⟨h1, ?_, ?_⟩
  · intro e
    match he : e.to_ with
    | none => simp [addressedToMe, he]
    | some t => simp [addressedToMe, he]
  · intro e hf hmem
    rw [h1] at hmem
    rcases List.mem_filter.mp hmem with ⟨-, hp⟩
    simp [hf] at hp

/-- C6 witness: a concrete mis-addressed event is excluded from the
dispatch list. -/
theorem claim_C6_witness :
    ⟨"utterance", some ⟨some "tag:example.com,2025:other", none, false⟩, none, []⟩ ∉
      botMyEvents "tag:example.com,2025:bot1" "https://example.com/bot"
        [⟨"utterance", some ⟨some "tag:example.com,2025:other", none, false⟩, none, []⟩] :=
  (claim_C6 "tag:example.com,2025:bot1" "https://example.com/bot"
    [⟨"utterance", some ⟨some "tag:example.com,2025:other", none, false⟩, none, []⟩]).2.2
    ⟨"utterance", some ⟨some "tag:example.com,2025:other", none, false⟩, none, []⟩
    (by rfl)

/-- C9 counterexample: an allowed event type does not guarantee that
`createEvent` succeeds — `utterance` is one of the twelve allowed types,
yet `createEvent` on a bare `{eventType: 'utterance'}` object throws
(the required `dialogEvent` parameter is missing), refuting the claimed
"if and only if". -/
theorem claim_C9_counterexample :
    allowedEventTypes.contains "utterance" = true ∧
    createEvent "2025-01-01T00:00:00.000Z"
        (Json.obj [("eventType", Json.str "utterance")]) =
      .error "UtteranceEvent requires parameters with dialogEvent" :=
  ⟨rfl, rfl⟩

/-- C9 (amended): constructing a bare `Event` succeeds exactly when the
event type is one of the twelve allowed (plural-spelling) strings; in
particular the singular `publishManifest` listed by the `EventType`
alias is rejected both by the `Event` constructor and by `createEvent`.
For richer subclasses an allowed type is necessary but not sufficient. -/
theorem claim_C9_amended :
    (∀ et : String,
      (∃ e, mkEvent { eventType := some et } = .ok e) ↔
        allowedEventTypes.contains et = true) ∧
    mkEvent { eventType := some "publishManifest" } =
      .error "Invalid eventType: publishManifest" ∧
    (∀ now : String,
      createEvent now (Json.obj [("eventType", Json.str "publishManifest")]) =
        .error "Unknown event type: publishManifest") := by
  refine ⟨?_, rfl, fun now => rfl⟩
  intro et
  constructor
  · rintro ⟨e, he⟩
    by_cases h : allowedEventTypes.contains et = true
    · exact h
    · have hb : et ∉ allowedEventTypes := by simpa using h
      simp [mkEvent, hb] at he
  · intro h
    have het : et ∈ allowedEventTypes := by simpa using h
    have hne : ¬ et = "" := by rintro rfl; simp [allowedEventTypes] at het
    exact ⟨⟨et, none, none, []⟩, by
      simp [mkEvent, strTruthy, het, hne, exBindOk, exPure, Except.bind, Except.map]⟩

/-- C9 witness: the amended equivalence instantiated at `invite`. -/
theorem claim_C9_amended_witness :
    ∃ e, mkEvent { eventType := some "invite" } = .ok e :=
  (claim_C9_amended.1 "invite").mpr (by decide)

/-! ## Validator error shape -/

/-- A path-qualified validator message: `path-or-root + ": " + message`. -/
def pathQual (e : String) : Prop := ∃ p m, e = p ++ ": " ++ m

theorem emitErr_shape (path msg : String) : pathQual (emitErr path msg) :=
  ⟨if path == "" then "root" else path, msg, rfl⟩

theorem typeSection_shape {d s : Json} {p e : String}
    (h : typeSection d s p = some e) : pathQual e := by
  unfold typeSection at h
  split at h
  · split at h
    · split at h
      · split at h
        · exact absurd h (by simp)
        · exact (Option.some.injEq _ _ ▸ h : _ = e) ▸ emitErr_shape _ _
      · split at h
        · exact absurd h (by simp)
        · split at h
          · exact absurd h (by simp)
          · exact (Option.some.injEq _ _ ▸ h : _ = e) ▸ emitErr_shape _ _
    · exact absurd h (by simp)
  · exact absurd h (by simp)

theorem requiredSection_shape {d s : Json} {p : String} :
    ∀ e ∈ requiredSection d s p, pathQual e := by
  intro e he
  unfold requiredSection at he
  split at he
  · split at he
    · rcases List.mem_filterMap.mp he with ⟨r, -, hr⟩
      split at hr
      · exact absurd hr (by simp)
      · exact (Option.some.injEq _ _ ▸ hr : _ = e) ▸ emitErr_shape _ _
    · simp at he
  · simp at he

theorem propsSection_shape {rec : Json → Json → String → List String}
    (hrec : ∀ d s p e, e ∈ rec d s p → pathQual e) {d s : Json} {p : String} :
    ∀ e ∈ propsSection rec d s p, pathQual e := by
  intro e he
  unfold propsSection at he
  split at he
  · split at he
    · rcases List.mem_flatMap.mp he with ⟨kv, -, hkv⟩
      split at hkv
      · exact hrec _ _ _ _ hkv
      · simp at hkv
    · simp at he
  · simp at he

theorem patPropsSection_shape {rt : String → String → Bool}
    {rec : Json → Json → String → List String}
    (hrec : ∀ d s p e, e ∈ rec d s p → pathQual e) {d s : Json} {p : String} :
    ∀ e ∈ patPropsSection rt rec d s p, pathQual e := by
  intro e he
  unfold patPropsSection at he
  split at he
  · split at he
    · rcases List.mem_flatMap.mp he with ⟨pkv, -, hp⟩
      rcases List.mem_flatMap.mp hp with ⟨dkv, -, hd⟩
      split at hd
      · exact hrec _ _ _ _ hd
      · simp at hd
    · simp at he
  · simp at he

theorem itemsSection_shape {rec : Json → Json → String → List String}
    (hrec : ∀ d s p e, e ∈ rec d s p → pathQual e) {d s : Json} {p : String} :
    ∀ e ∈ itemsSection rec d s p, pathQual e := by
  intro e he
  unfold itemsSection at he
  split at he
  · split at he
    · split at he
      · rcases List.mem_flatMap.mp he with ⟨iv, -, hiv⟩
        exact hrec _ _ _ _ hiv
      · simp at he
    · simp at he
  · simp at he

theorem enumSection_shape {d s : Json} {p : String} :
    ∀ e ∈ enumSection d s p, pathQual e := by
  intro e he
  unfold enumSection at he
  split at he
  · split at he
    · simp at he
    · rcases List.mem_singleton.mp he with rfl
      exact emitErr_shape _ _
  · simp at he

theorem rangeSection_shape {d s : Json} {p : String} :
    ∀ e ∈ rangeSection d s p, pathQual e := by
  intro e he
  unfold rangeSection at he
  split at he
  · rcases List.mem_append.mp he with h | h
    · split at h
      · split at h
        · rcases List.mem_singleton.mp h with rfl
          exact emitErr_shape _ _
        · simp at h
      · simp at h
    · split at h
      · split at h
        · rcases List.mem_singleton.mp h with rfl
          exact emitErr_shape _ _
        · simp at h
      · simp at h
  · simp at he

theorem patternSection_shape {rt : String → String → Bool} {d s : Json} {p : String} :
    ∀ e ∈ patternSection rt d s p, pathQual e := by
  intro e he
  unfold patternSection at he
  split at he
  · split at he
    · split at he
      · split at he
        · simp at he
        · rcases List.mem_singleton.mp he with rfl
          exact emitErr_shape _ _
      · simp at he
    · simp at he
  · simp at he

theorem anyOfSection_shape {rec : Json → Json → String → List String}
    {d s : Json} {p : String} :
    ∀ e ∈ anyOfSection rec d s p, pathQual e := by
  intro e he
  unfold anyOfSection at he
  split at he
  · split at he
    · simp at he
    · rcases List.mem_singleton.mp he with rfl
      exact emitErr_shape _ _
  · simp at he

/-- Every error `_validateObject` accumulates is path-qualified. -/
theorem validateGo_shape (rt : String → String → Bool) :
    ∀ fuel (data schema : Json) (path : String),
      ∀ e ∈ validateGo rt fuel data schema path, pathQual e := by
  intro fuel
  induction fuel with
  | zero =>
      intro data schema path e he
      simp [validateGo] at he
  | succ n ih =>
      intro data schema path e he
      rw [validateGo] at he
      split at he
      · rcases List.mem_singleton.mp he with rfl
        exact typeSection_shape (by assumption)
      · have hrec : ∀ d s p e, e ∈ (fun d s p => validateGo rt n d s p) d s p →
            pathQual e := fun d s p e h => ih d s p e h
        rcases List.mem_append.mp he with h | h
        swap
        · exact anyOfSection_shape _ h
        rcases List.mem_append.mp h with h | h
        swap
        · exact patternSection_shape _ h
        rcases List.mem_append.mp h with h | h
        swap
        · exact rangeSection_shape _ h
        rcases List.mem_append.mp h with h | h
        swap
        · exact enumSection_shape _ h
        rcases List.mem_append.mp h with h | h
        swap
        · exact itemsSection_shape hrec _ h
        rcases List.mem_append.mp h with h | h
        swap
        · exact patPropsSection_shape hrec _ h
        rcases List.mem_append.mp h with h | h
        · exact requiredSection_shape _ h
        · exact propsSection_shape hrec _ h

/-- C7: `SimpleValidator.validate` (with the regex engine modelled as a
total oracle `rt`) always returns a `{valid, errors}` result — the
embedded recursion is total, so no exception escapes — with `valid` true
exactly when `errors` is empty, and every accumulated error is a
path-qualified string of the form `path + ": " + message`. -/
theorem claim_C7 (rt : String → String → Bool) (data schema : Json) :
    ((SimpleValidator.validate rt data schema).valid = true ↔
      (SimpleValidator.validate rt data schema).errors = []) ∧
    ∀ e ∈ (SimpleValidator.validate rt data schema).errors, ∃ p m, e = p ++ ": " ++ m := by
  constructor
  · simp [SimpleValidator.validate, List.isEmpty_iff]
  · intro e he
    exact validateGo_shape rt _ data schema "" e he

/-- C7 witness: a concrete failing validation whose single error is
path-qualified. -/
theorem claim_C7_witness :
    ∃ p m, "root: expected number, got string" = p ++ ": " ++ m :=
  (claim_C7 (fun _ _ => false) (Json.str "a") (Json.obj [("type", Json.str "number")])).2
    "root: expected number, got string" (by decide)

/-- C10: for a schema object whose `type` is `'object'` (and which has
no `enum`/`anyOf` clauses, the only sections that could still fire on a
non-object), `validate(null, schema)` returns `valid: true` with no
errors: `typeof null === 'object'` passes the type check, and the
`required`/`properties`/`patternProperties` sections skip a falsy data
value, so `null` vacuously satisfies any required-property list. -/
theorem claim_C10 (rt : String → String → Bool) (fields : List (String × Json))
    (htype : lookupField fields "type" = some (Json.str "object"))
    (henum : lookupField fields "enum" = none)
    (hanyOf : lookupField fields "anyOf" = none) :
    SimpleValidator.validate rt Json.null (Json.obj fields) =
      ⟨true, []⟩ := by
  have hsize : Json.size (Json.obj fields) = Json.sizeFields fields + 1 := by
    simp [Json.size, Nat.add_comm]
  have hts : typeSection Json.null (Json.obj fields) "" = none := by
    simp [typeSection, Json.lookup, htype, jsTruthy, typeStrEq, typeofStr]
  have hreq : requiredSection Json.null (Json.obj fields) "" = [] := by
    unfold requiredSection
    split <;> simp [jsTruthy]
  have hprops : propsSection (fun d s p => validateGo rt (Json.sizeFields fields) d s p)
      Json.null (Json.obj fields) "" = [] := by
    unfold propsSection
    split <;> simp [jsTruthy]
  have hpat : patPropsSection rt (fun d s p => validateGo rt (Json.sizeFields fields) d s p)
      Json.null (Json.obj fields) "" = [] := by
    unfold patPropsSection
    split <;> simp [jsTruthy]
  have hitems : itemsSection (fun d s p => validateGo rt (Json.sizeFields fields) d s p)
      Json.null (Json.obj fields) "" = [] := by
    unfold itemsSection
    split <;> simp
  have henum2 : enumSection Json.null (Json.obj fields) "" = [] := by
    simp [enumSection, Json.lookup, henum]
  have hrange : rangeSection Json.null (Json.obj fields) "" = [] := by
    simp [rangeSection]
  have hpattern : patternSection rt Json.null (Json.obj fields) "" = [] := by
    simp [patternSection]
  have hanyOf2 : anyOfSection (fun d s p => validateGo rt (Json.sizeFields fields) d s p)
      Json.null (Json.obj fields) "" = [] := by
    simp [anyOfSection, Json.lookup, hanyOf]
  simp [SimpleValidator.validate, hsize, validateGo, hts, hreq, hprops, hpat, hitems,
    henum2, hrange, hpattern, hanyOf2]

/-- C10 witness: `validate(null, {type:'object', required:['speakerUri']})`
is valid with no errors. -/
theorem claim_C10_witness :
    SimpleValidator.validate (fun _ _ => false) Json.null
        (Json.obj [("type", Json.str "object"),
          ("required", Json.arr [Json.str "speakerUri"])]) =
      ⟨true, []⟩ :=
  claim_C10 (fun _ _ => false)
    [("type", Json.str "object"), ("required", Json.arr [Json.str "speakerUri"])]
    rfl rfl rfl

/-! ## Fuel sufficiency of the validator embedding

The recursion of `_validateObject` only descends into strict subterms of
the schema, so any fuel of at least `Json.size schema` yields the same
result: the fuel is an artifact of the embedding, not a semantic bound. -/

theorem size_pos (j : Json) : 1 ≤ Json.size j := by
  cases j <;> simp [Json.size]

theorem sizeFields_of_mem {kv : String × Json} :
    ∀ {fs : List (String × Json)}, kv ∈ fs →
      Json.size kv.2 + 1 ≤ Json.sizeFields fs := by
  intro fs h
  induction fs with
  | nil => simp at h
  | cons hd tl ih =>
      rcases List.mem_cons.mp h with rfl | h'
      · simp [Json.sizeFields]
        omega
      · have := ih h'
        simp [Json.sizeFields]
        omega

theorem sizeElems_of_mem {x : Json} :
    ∀ {xs : List Json}, x ∈ xs → Json.size x + 1 ≤ Json.sizeElems xs := by
  intro xs h
  induction xs with
  | nil => simp at h
  | cons hd tl ih =>
      rcases List.mem_cons.mp h with rfl | h'
      · simp [Json.sizeElems]
        omega
      · have := ih h'
        simp [Json.sizeElems]
        omega

theorem lookupField_mem : ∀ {fs : List (String × Json)} {k : String} {v : Json},
    lookupField fs k = some v → (k, v) ∈ fs := by
  intro fs
  induction fs with
  | nil => intro k v h; simp [lookupField] at h
  | cons hd tl ih =>
      intro k v h
      rw [lookupField] at h
      split at h
      · rcases Option.some.injEq _ _ ▸ h with rfl
        rename_i heq
        exact heq ▸ List.mem_cons_self _ _
      · exact List.mem_cons_of_mem _ (ih h)

theorem size_lookup {j : Json} {k : String} {v : Json}
    (h : j.lookup k = some v) : Json.size v + 2 ≤ Json.size j := by
  match j with
  | .obj fs =>
      have hm := lookupField_mem (h : lookupField fs k = some v)
      have h2 : Json.size v + 1 ≤ Json.sizeFields fs := sizeFields_of_mem hm
      simp [Json.size]
      omega
  | .null | .bool _ | .num _ | .str _ | .arr _ => simp [Json.lookup] at h

theorem enum_snd_mem {α : Type} {iv : Nat × α} :
    ∀ {xs : List α} {n : Nat}, iv ∈ xs.enumFrom n → iv.2 ∈ xs := by
  intro xs
  induction xs with
  | nil => intro n h; simp at h
  | cons hd tl ih =>
      intro n h
      rcases List.mem_cons.mp h with rfl | h'
      · exact List.mem_cons_self _ _
      · exact List.mem_cons_of_mem _ (ih h')

theorem size_jsEntries {kv : String × Json} {j : Json}
    (h : kv ∈ jsEntries j) : Json.size kv.2 ≤ Json.size j := by
  match j with
  | .obj fs =>
      have h2 : Json.size kv.2 + 1 ≤ Json.sizeFields fs := sizeFields_of_mem h
      simp [Json.size]
      omega
  | .arr xs =>
      simp only [jsEntries, List.mem_map] at h
      rcases h with ⟨iv, hiv, rfl⟩
      rw [List.enum_eq_enumFrom] at hiv
      have hm : iv.2 ∈ xs := enum_snd_mem hiv
      have h2 : Json.size iv.2 + 1 ≤ Json.sizeElems xs := sizeElems_of_mem hm
      simp [Json.size]
      omega
  | .str s =>
      simp only [jsEntries, List.mem_map] at h
      rcases h with ⟨ic, -, rfl⟩
      simp [Json.size]
  | .null | .bool _ | .num _ => simp [jsEntries] at h

theorem flatMap_congr {α β : Type} {l : List α} {f g : α → List β}
    (h : ∀ a ∈ l, f a = g a) : l.flatMap f = l.flatMap g := by
  induction l with
  | nil => rfl
  | cons hd tl ih =>
      simp only [List.flatMap_cons, h hd (List.mem_cons_self _ _)]
      rw [ih (fun a ha => h a (List.mem_cons_of_mem _ ha))]

theorem any_congr {α : Type} {l : List α} {f g : α → Bool}
    (h : ∀ a ∈ l, f a = g a) : l.any f = l.any g := by
  induction l with
  | nil => rfl
  | cons hd tl ih =>
      simp only [List.any_cons, h hd (List.mem_cons_self _ _)]
      rw [ih (fun a ha => h a (List.mem_cons_of_mem _ ha))]

/-- Any two fuels of at least `Json.size schema` give `_validateObject`
the same result: the recursion only descends into strict subterms of the
schema, so `SimpleValidator.validate`'s fuel never runs out. -/
theorem validateGo_fuel_sufficient (rt : String → String → Bool) :
    ∀ (n : Nat) (schema : Json), Json.size schema ≤ n →
      ∀ (f₁ f₂ : Nat), Json.size schema ≤ f₁ → Json.size schema ≤ f₂ →
        ∀ (data : Json) (path : String),
          validateGo rt f₁ data schema path = validateGo rt f₂ data schema path := by
  intro n
  induction n with
  | zero =>
      intro schema hs
      exact absurd (size_pos schema) (by omega)
  | succ n ih =>
      intro schema hs f₁ f₂ h₁ h₂ data path
      have hpos := size_pos schema
      obtain ⟨a, rfl⟩ : ∃ a, f₁ = a + 1 := ⟨f₁ - 1, by omega⟩
      obtain ⟨b, rfl⟩ : ∃ b, f₂ = b + 1 := ⟨f₂ - 1, by omega⟩
      simp only [validateGo]
      cases htf : typeSection data schema path with
      | some e => rfl
      | none =>
          have hprops :
              propsSection (fun d s p => validateGo rt a d s p) data schema path =
                propsSection (fun d s p => validateGo rt b d s p) data schema path := by
            unfold propsSection
            cases hp : schema.lookup "properties" with
            | none => rfl
            | some props =>
                simp only []
                have hps := size_lookup hp
                by_cases hg : (jsTruthy props && jsTruthy data && typeofStr data == "object") = true
                · rw [if_pos hg, if_pos hg]
                  refine flatMap_congr ?_
                  intro kv hkv
                  have hkv2 := size_jsEntries hkv
                  by_cases hh : jsHasProp data kv.1 = true
                  · rw [if_pos hh, if_pos hh]
                    exact ih kv.2 (by omega) a b (by omega) (by omega) _ _
                  · rw [if_neg hh, if_neg hh]
                · rw [if_neg hg, if_neg hg]
          have hpatProps :
              patPropsSection rt (fun d s p => validateGo rt a d s p) data schema path =
                patPropsSection rt (fun d s p => validateGo rt b d s p) data schema path := by
            unfold patPropsSection
            cases hp : schema.lookup "patternProperties" with
            | none => rfl
            | some pats =>
                simp only []
                have hps := size_lookup hp
                by_cases hg : (jsTruthy pats && jsTruthy data && typeofStr data == "object") = true
                · rw [if_pos hg, if_pos hg]
                  refine flatMap_congr ?_
                  intro pkv hpkv
                  have hp2 := size_jsEntries hpkv
                  refine flatMap_congr ?_
                  intro dkv hdkv
                  by_cases hr : rt pkv.1 dkv.1 = true
                  · rw [if_pos hr, if_pos hr]
                    exact ih pkv.2 (by omega) a b (by omega) (by omega) _ _
                  · rw [if_neg hr, if_neg hr]
                · rw [if_neg hg, if_neg hg]
          have hitems :
              itemsSection (fun d s p => validateGo rt a d s p) data schema path =
                itemsSection (fun d s p => validateGo rt b d s p) data schema path := by
            unfold itemsSection
            cases hi : schema.lookup "items" with
            | none => rfl
            | some sub =>
                simp only []
                have his := size_lookup hi
                by_cases hg : jsTruthy sub = true
                · rw [if_pos hg, if_pos hg]
                  cases data with
                  | arr xs =>
                      simp only []
                      refine flatMap_congr ?_
                      intro iv hiv
                      exact ih sub (by omega) a b (by omega) (by omega) _ _
                  | null => rfl
                  | bool c => rfl
                  | num q => rfl
                  | str s => rfl
                  | obj fs => rfl
                · rw [if_neg hg, if_neg hg]
          have hanyOf :
              anyOfSection (fun d s p => validateGo rt a d s p) data schema path =
                anyOfSection (fun d s p => validateGo rt b d s p) data schema path := by
            unfold anyOfSection
            cases ha : schema.lookup "anyOf" with
            | none => rfl
            | some v =>
                cases v with
                | arr subs =>
                    simp only []
                    have hs2 := size_lookup ha
                    simp only [Json.size] at hs2
                    have hcongr :
                        subs.any (fun sub => (validateGo rt a data sub path).isEmpty) =
                          subs.any (fun sub => (validateGo rt b data sub path).isEmpty) := by
                      refine any_congr ?_
                      intro sub hsub
                      have hse := sizeElems_of_mem hsub
                      rw [ih sub (by omega) a b (by omega) (by omega) data path]
                    rw [hcongr]
                | null => rfl
                | bool c => rfl
                | num q => rfl
                | str s => rfl
                | obj fs => rfl
          rw [hprops, hpatProps, hitems, hanyOf]

/-- The fuel `SimpleValidator.validate` passes is already at the fixed
point: adding any extra fuel changes nothing. -/
theorem validate_fuel_stable (rt : String → String → Bool) (data schema : Json)
    (k : Nat) :
    validateGo rt (Json.size schema + k) data schema "" =
      validateGo rt (Json.size schema) data schema "" :=
  validateGo_fuel_sufficient rt (Json.size schema) schema le_rfl _ _ (by omega)
    le_rfl data ""

end OFP
